import Mathlib

/-!
A verification development for the `mcp_tools` package: the JSON-RPC message
model and line codec (`transport.py`: `JsonRpcRequest`, `JsonRpcResponse`),
the worker-side dispatch loop (`server.py`: `StdioToolServer`), the process
transport (`transport.py`: `StdioTransport`) and the controller-side manager
(`manager.py`: `ToolServerManager`).

The embedding is executable throughout.  Python's `json.dumps` / `json.loads`
are modelled by a concrete serializer and recursive-descent parser over a JSON
value type covering the fragment the protocol uses (null, booleans, arbitrary
precision integers, strings, arrays, objects; floating point numbers are out
of scope).  The serializer mirrors CPython's defaults: `", "` and `": "`
separators, `ensure_ascii=True` escaping.  Stateful code (child processes,
the manager's registry, transports) is modelled by explicit state passing
over a `World` record that tracks every process ever spawned, so that claims
about leaked or terminated children are expressible.
-/

/-- JSON values, as produced by `json.loads` on the integer fragment of JSON.
`obj` keeps the Python `dict`'s insertion order. -/
inductive Json where
  | null : Json
  | bool : Bool → Json
  | num : Int → Json
  | str : String → Json
  | arr : List Json → Json
  | obj : List (String × Json) → Json
  deriving Repr, Inhabited

/-- Decimal digits of `n`, most significant first; the first argument is
recursion fuel (any fuel `≥ n` is exact). -/
def natCharsAux : Nat → Nat → List Char
  | 0, _ => []
  | fuel + 1, n => if n = 0 then [] else natCharsAux fuel (n / 10) ++ [Nat.digitChar (n % 10)]

/-- Decimal rendering of a natural number, as Python's `str`. -/
def natChars (n : Nat) : List Char :=
  if n = 0 then ['0'] else natCharsAux n n

/-- Decimal rendering of an integer, as Python's `str`. -/
def intChars (i : Int) : List Char :=
  if i < 0 then '-' :: natChars i.natAbs else natChars i.natAbs

/-- Lowercase 4-digit hex rendering of a code point, as in `\uXXXX` escapes. -/
def hex4 (n : Nat) : List Char :=
  [Nat.digitChar (n / 4096 % 16), Nat.digitChar (n / 256 % 16),
   Nat.digitChar (n / 16 % 16), Nat.digitChar (n % 16)]

/-- The escape `json.dumps` (with `ensure_ascii=True`) applies to one
character: `"` and `\` are backslash-escaped, the five short C escapes are
used for their control characters, every other character outside the
printable ASCII range `0x20`–`0x7e` becomes `\uXXXX`. -/
def escapeChar (c : Char) : List Char :=
  if c = '"' then ['\\', '"']
  else if c = '\\' then ['\\', '\\']
  else if c = '\n' then ['\\', 'n']
  else if c = '\r' then ['\\', 'r']
  else if c = '\t' then ['\\', 't']
  else if c.toNat = 8 then ['\\', 'b']
  else if c.toNat = 12 then ['\\', 'f']
  else if c.toNat < 32 ∨ c.toNat ≥ 127 then '\\' :: 'u' :: hex4 c.toNat
  else [c]

/-- Body of a serialized JSON string (between the quotes). -/
def encodeStrBody : List Char → List Char
  | [] => []
  | c :: rest => escapeChar c ++ encodeStrBody rest

/-- Serialized JSON string, quotes included. -/
def encodeStrChars (s : String) : List Char :=
  '"' :: encodeStrBody s.data ++ ['"']

/-- Join pre-rendered items with `json.dumps`'s default `", "` separator. -/
def sepJoin (ss : List (List Char)) : List Char :=
  (ss.intersperse [',', ' ']).flatten

mutual

/-- Model of `json.dumps` (to a character list): CPython defaults, so `", "`
between container items and `": "` after object keys. -/
def encodeJ : Json → List Char
  | .null => "null".data
  | .bool true => "true".data
  | .bool false => "false".data
  | .num i => intChars i
  | .str s => encodeStrChars s
  | .arr xs => '[' :: sepJoin (encodeList xs) ++ [']']
  | .obj kvs => '\x7b' :: sepJoin (encodePairs kvs) ++ ['\x7d']

/-- Serialized forms of array elements, in order. -/
def encodeList : List Json → List (List Char)
  | [] => []
  | x :: xs => encodeJ x :: encodeList xs

/-- Serialized forms of object members (`"key": value`), in order. -/
def encodePairs : List (String × Json) → List (List Char)
  | [] => []
  | (k, v) :: rest => (encodeStrChars k ++ ':' :: ' ' :: encodeJ v) :: encodePairs rest

end

/-- Model of `json.dumps` returning a string. -/
def pyDumps (j : Json) : String := ⟨encodeJ j⟩

/-- Numeric value of a decimal digit character. -/
def digitVal (c : Char) : Nat := c.toNat - 48

/-- Value of a most-significant-first digit string. -/
def digitsToNat (ds : List Char) : Nat :=
  ds.foldl (fun a c => 10 * a + digitVal c) 0

/-- Parse a JSON natural number literal (leading zeros rejected, as by
CPython's `NUMBER_RE`). -/
def parseNatPart (cs : List Char) : Option (Nat × List Char) :=
  let ds := cs.takeWhile Char.isDigit
  if ds = [] then none
  else if ds.head? = some '0' ∧ ds.length > 1 then none
  else some (digitsToNat ds, cs.dropWhile Char.isDigit)

/-- Parse an optionally negated JSON integer literal. -/
def parseNum (cs : List Char) : Option (Int × List Char) :=
  if cs.head? = some '-' then (parseNatPart cs.tail).map (fun p => (-(p.1 : Int), p.2))
  else (parseNatPart cs).map (fun p => ((p.1 : Int), p.2))

/-- Hexadecimal digit recognizer, both cases. -/
def isHexDigit (c : Char) : Bool :=
  c.isDigit || ('a' ≤ c && c ≤ 'f') || ('A' ≤ c && c ≤ 'F')

/-- Numeric value of a hexadecimal digit character. -/
def hexVal (c : Char) : Nat :=
  if c.isDigit then c.toNat - 48
  else if 'a' ≤ c && c ≤ 'f' then c.toNat - 87
  else c.toNat - 55

/-- Decode the character named by a short escape `\e`. -/
def unescChar (c : Char) : Option Char :=
  if c = '"' then some '"'
  else if c = '\\' then some '\\'
  else if c = '/' then some '/'
  else if c = 'b' then some '\x08'
  else if c = 'f' then some '\x0c'
  else if c = 'n' then some '\n'
  else if c = 'r' then some '\r'
  else if c = 't' then some '\t'
  else none

/-- Parse the body of a JSON string up to and including the closing quote,
returning the decoded characters and the remaining input.  Raw control
characters are rejected (CPython's strict mode). -/
def parseStrBody : List Char → Option (List Char × List Char)
  | [] => none
  | '"' :: rest => some ([], rest)
  | '\\' :: 'u' :: h1 :: h2 :: h3 :: h4 :: tl =>
    if isHexDigit h1 && isHexDigit h2 && isHexDigit h3 && isHexDigit h4 then
      (parseStrBody tl).map (fun p =>
        (Char.ofNat (4096 * hexVal h1 + 256 * hexVal h2 + 16 * hexVal h3 + hexVal h4) :: p.1,
         p.2))
    else none
  | '\\' :: e :: tl =>
    (unescChar e).bind (fun u => (parseStrBody tl).map (fun p => (u :: p.1, p.2)))
  | c :: tl =>
    if c.toNat < 32 then none
    else (parseStrBody tl).map (fun p => (c :: p.1, p.2))

/-- JSON insignificant whitespace. -/
def isWsChar (c : Char) : Bool :=
  c = ' ' || c = '\t' || c = '\n' || c = '\r'

/-- Drop leading JSON whitespace. -/
def skipWs (cs : List Char) : List Char := cs.dropWhile isWsChar

/-- Consume an expected literal sequence of characters. -/
def stripPre : List Char → List Char → Option (List Char)
  | [], cs => some cs
  | p :: ps, c :: cs => if c = p then stripPre ps cs else none
  | _ :: _, [] => none

/-- Assignment `d[k] = v` on a Python `dict` modelled as an ordered
association list: an existing key keeps its position, a new key is appended. -/
def objInsert (kvs : List (String × Json)) (k : String) (v : Json) : List (String × Json) :=
  if kvs.any (fun p => p.1 = k) then
    kvs.map (fun p => if p.1 = k then (k, v) else p)
  else kvs ++ [(k, v)]

/-- Build the `dict` that `json.loads` produces from parsed members (later
duplicate keys overwrite earlier ones in place). -/
def buildObj (pairs : List (String × Json)) : List (String × Json) :=
  pairs.foldl (fun acc p => objInsert acc p.1 p.2) []

mutual

/-- Recursive-descent parser for one JSON value: fuel, then input.  Returns
the value and the unconsumed remainder. -/
def parseVal : Nat → List Char → Option (Json × List Char)
  | 0, _ => none
  | fuel + 1, cs =>
    match skipWs cs with
    | [] => none
    | c :: rest =>
      if c = 'n' then (stripPre ['u', 'l', 'l'] rest).map (fun r => (Json.null, r))
      else if c = 't' then (stripPre ['r', 'u', 'e'] rest).map (fun r => (Json.bool true, r))
      else if c = 'f' then (stripPre ['a', 'l', 's', 'e'] rest).map (fun r => (Json.bool false, r))
      else if c = '"' then (parseStrBody rest).map (fun p => (Json.str ⟨p.1⟩, p.2))
      else if c = '[' then
        let r := skipWs rest
        if r.head? = some ']' then some (Json.arr [], r.tail)
        else (parseItems fuel r).map (fun p => (Json.arr p.1, p.2))
      else if c = '\x7b' then
        let r := skipWs rest
        if r.head? = some '\x7d' then some (Json.obj [], r.tail)
        else (parseMembers fuel r).map (fun p => (Json.obj (buildObj p.1), p.2))
      else if c = '-' || c.isDigit then
        (parseNum (c :: rest)).map (fun p => (Json.num p.1, p.2))
      else none

/-- Parse the elements of a non-empty array, consuming the closing `]`. -/
def parseItems : Nat → List Char → Option (List Json × List Char)
  | 0, _ => none
  | fuel + 1, cs =>
    (parseVal fuel cs).bind (fun p =>
      let r := skipWs p.2
      if r.head? = some ',' then
        (parseItems fuel r.tail).map (fun q => (p.1 :: q.1, q.2))
      else if r.head? = some ']' then some ([p.1], r.tail)
      else none)

/-- Parse the members of a non-empty object, consuming the closing brace. -/
def parseMembers : Nat → List Char → Option (List (String × Json) × List Char)
  | 0, _ => none
  | fuel + 1, cs =>
    match skipWs cs with
    | '"' :: rest =>
      (parseStrBody rest).bind (fun pk =>
        let r2 := skipWs pk.2
        if r2.head? = some ':' then
          (parseVal fuel r2.tail).bind (fun pv =>
            let r3 := skipWs pv.2
            if r3.head? = some ',' then
              (parseMembers fuel r3.tail).map (fun q => ((⟨pk.1⟩, pv.1) :: q.1, q.2))
            else if r3.head? = some '\x7d' then some ([(⟨pk.1⟩, pv.1)], r3.tail)
            else none)
        else none)
    | _ => none

end

/-- Model of `json.loads` on a character list: one value, then only
whitespace may remain (otherwise CPython reports extra data). -/
def pyLoadsChars (cs : List Char) : Option Json :=
  (parseVal (cs.length + 1) cs).bind (fun p => if skipWs p.2 = [] then some p.1 else none)

/-- Model of `json.loads`: `none` is a raised `json.JSONDecodeError`. -/
def pyLoads (s : String) : Option Json := pyLoadsChars s.data

/-- Characters removed from both ends by Python's `str.strip()`. -/
def isPySpace (c : Char) : Bool :=
  c = ' ' || c = '\t' || c = '\n' || c = '\r' || c = '\x0b' || c = '\x0c'

/-- Model of Python's `str.strip()`. -/
def pyStrip (s : String) : String :=
  ⟨(s.data.dropWhile isPySpace).reverse.dropWhile isPySpace |>.reverse⟩

/-- Strings representable by the modelled codec: every character is in the
Basic Multilingual Plane (CPython encodes astral characters as surrogate
pairs, which the model does not cover). -/
def validStr (s : String) : Bool := s.data.all (fun c => c.toNat < 65536)

mutual

/-- JSON-encodable values of the modelled fragment: all strings are
BMP-only and object keys are distinct (a Python `dict` cannot hold
duplicates). -/
def jvalid : Json → Bool
  | .null => true
  | .bool _ => true
  | .num _ => true
  | .str s => validStr s
  | .arr xs => jvalidL xs
  | .obj kvs => (kvs.map Prod.fst).Nodup && jvalidP kvs

/-- Validity of every element of an array. -/
def jvalidL : List Json → Bool
  | [] => true
  | x :: xs => jvalid x && jvalidL xs

/-- Validity of every member of an object (key and value). -/
def jvalidP : List (String × Json) → Bool
  | [] => true
  | (k, v) :: rest => validStr k && jvalid v && jvalidP rest

end

mutual

/-- Structural size of a JSON value, used as a parser fuel bound. -/
def sizeJ : Json → Nat
  | .arr xs => sizeL xs + 1
  | .obj kvs => sizeP kvs + 1
  | .null => 1
  | .bool _ => 1
  | .num _ => 1
  | .str _ => 1

/-- Combined size of array elements. -/
def sizeL : List Json → Nat
  | [] => 0
  | x :: tl => 1 + sizeJ x + sizeL tl

/-- Combined size of object members. -/
def sizeP : List (String × Json) → Nat
  | [] => 0
  | (_, x) :: tl => 1 + sizeJ x + sizeP tl

end

theorem digitsToNat_nil : digitsToNat [] = 0 := rfl

theorem digitsToNat_append_digit (xs : List Char) (c : Char) :
    digitsToNat (xs ++ [c]) = 10 * digitsToNat xs + digitVal c := by
  simp [digitsToNat, List.foldl_append]

theorem natCharsAux_val : ∀ fuel n, n ≤ fuel → digitsToNat (natCharsAux fuel n) = n := by
  intro fuel
  induction fuel with
  | zero => intro n h; interval_cases n; rfl
  | succ fuel ih =>
    intro n h
    by_cases h0 : n = 0
    · simp [natCharsAux, h0, digitsToNat]
    · have hlt : n / 10 ≤ fuel := by omega
      have hmod : n % 10 < 10 := Nat.mod_lt _ (by norm_num)
      have hd : digitVal (Nat.digitChar (n % 10)) = n % 10 := by
        have : n % 10 < 10 := hmod
        interval_cases h : n % 10 <;> simp_all [digitVal, Nat.digitChar]
      rw [natCharsAux, if_neg h0, digitsToNat_append_digit, ih _ hlt, hd]
      omega

theorem natCharsAux_digits : ∀ fuel n c, c ∈ natCharsAux fuel n → c.isDigit = true := by
  intro fuel
  induction fuel with
  | zero => intro n c h; simp [natCharsAux] at h
  | succ fuel ih =>
    intro n c h
    by_cases h0 : n = 0
    · simp [natCharsAux, h0] at h
    · rw [natCharsAux, if_neg h0] at h
      rcases List.mem_append.mp h with h1 | h2
      · exact ih _ _ h1
      · have hmod : n % 10 < 10 := Nat.mod_lt _ (by norm_num)
        have hc : c = Nat.digitChar (n % 10) := by simpa using h2
        subst hc
        interval_cases h : n % 10 <;> simp_all [Nat.digitChar]

theorem natCharsAux_ne_nil : ∀ fuel n, 0 < n → n ≤ fuel → natCharsAux fuel n ≠ [] := by
  intro fuel n h1 h2
  cases fuel with
  | zero => omega
  | succ fuel =>
    rw [natCharsAux, if_neg (by omega)]
    simp

theorem natChars_digits (n : Nat) : ∀ c ∈ natChars n, c.isDigit = true := by
  intro c hc
  unfold natChars at hc
  by_cases h0 : n = 0
  · simp [h0] at hc
    simp [hc]
  · rw [if_neg h0] at hc
    exact natCharsAux_digits n n c hc

theorem natChars_val (n : Nat) : digitsToNat (natChars n) = n := by
  unfold natChars
  by_cases h0 : n = 0
  · simp [h0]; rfl
  · rw [if_neg h0]
    exact natCharsAux_val n n le_rfl

theorem natChars_ne_nil (n : Nat) : natChars n ≠ [] := by
  unfold natChars
  by_cases h0 : n = 0
  · simp [h0]
  · rw [if_neg h0]
    exact natCharsAux_ne_nil n n (by omega) le_rfl

theorem natCharsAux_head_ne_zero : ∀ fuel n, 0 < n → n ≤ fuel →
    (natCharsAux fuel n).head? ≠ some '0' := by
  intro fuel
  induction fuel with
  | zero => intro n h1 h2; omega
  | succ fuel ih =>
    intro n h1 h2
    rw [natCharsAux, if_neg (by omega)]
    by_cases hsmall : n < 10
    · have : n / 10 = 0 := by omega
      rw [this]
      cases fuel with
      | zero =>
        simp [natCharsAux]
        have : n % 10 = n := by omega
        rw [this]
        interval_cases n <;> simp [Nat.digitChar]
      | succ fuel =>
        simp [natCharsAux]
        have : n % 10 = n := by omega
        rw [this]
        interval_cases n <;> simp [Nat.digitChar]
    · have hne : natCharsAux fuel (n / 10) ≠ [] :=
        natCharsAux_ne_nil fuel (n / 10) (by omega) (by omega)
      rcases List.exists_cons_of_ne_nil hne with ⟨c, t, hct⟩
      rw [hct]
      have := ih (n / 10) (by omega) (by omega)
      rw [hct] at this
      simpa using this

theorem natChars_head_ne_zero (n : Nat) (h : 0 < n) : (natChars n).head? ≠ some '0' := by
  unfold natChars
  rw [if_neg (by omega)]
  exact natCharsAux_head_ne_zero n n h le_rfl

theorem takeWhile_all_append {p : Char → Bool} (xs ys : List Char)
    (hx : ∀ c ∈ xs, p c = true) (hy : ∀ c, ys.head? = some c → p c = false) :
    (xs ++ ys).takeWhile p = xs ∧ (xs ++ ys).dropWhile p = ys := by
  induction xs with
  | nil =>
    simp only [List.nil_append]
    cases ys with
    | nil => simp
    | cons y t =>
      have := hy y rfl
      simp [List.takeWhile, List.dropWhile, this]
  | cons x t ih =>
    have hx1 : p x = true := hx x (by simp)
    have ht := ih (fun c hc => hx c (by simp [hc]))
    simp [List.takeWhile, List.dropWhile, hx1, ht.1, ht.2]

/-- Absence of a digit at the head of the remaining input, the boundary
condition after a serialized number. -/
def noDigitHead (cs : List Char) : Prop := ∀ c, cs.head? = some c → c.isDigit = false

theorem parseNatPart_natChars (n : Nat) (rest : List Char) (hrest : noDigitHead rest) :
    parseNatPart (natChars n ++ rest) = some (n, rest) := by
  have hall := natChars_digits n
  have hsplit := takeWhile_all_append (natChars n) rest hall hrest
  unfold parseNatPart
  rw [hsplit.1, hsplit.2]
  have hne : natChars n ≠ [] := natChars_ne_nil n
  rw [if_neg hne]
  have hlead : ¬((natChars n).head? = some '0' ∧ (natChars n).length > 1) := by
    rintro ⟨h0, hlen⟩
    by_cases hn : n = 0
    · subst hn
      simp [natChars] at hlen
    · exact natChars_head_ne_zero n (by omega) h0
  rw [if_neg hlead, natChars_val]

theorem digit_head_natChars (n : Nat) :
    ∃ c t, natChars n = c :: t ∧ c.isDigit = true := by
  rcases List.exists_cons_of_ne_nil (natChars_ne_nil n) with ⟨c, t, hct⟩
  exact ⟨c, t, hct, natChars_digits n c (by rw [hct]; simp)⟩

theorem parseNum_intChars (i : Int) (rest : List Char) (hrest : noDigitHead rest) :
    parseNum (intChars i ++ rest) = some (i, rest) := by
  unfold intChars parseNum
  by_cases hneg : i < 0
  · rw [if_pos hneg]
    simp only [List.cons_append, List.head?_cons, List.tail_cons]
    rw [if_pos trivial, parseNatPart_natChars _ _ hrest]
    simp [Int.natCast_natAbs, abs_of_neg hneg]
  · rw [if_neg hneg]
    rcases digit_head_natChars i.natAbs with ⟨c, t, hct, hdig⟩
    rw [hct]
    have hcm : c ≠ '-' := by
      intro h
      subst h
      simp [Char.isDigit] at hdig
    simp only [List.cons_append, List.head?_cons]
    rw [if_neg (by simpa using hcm), ← List.cons_append, ← hct,
      parseNatPart_natChars _ _ hrest]
    simp [Int.natCast_natAbs, abs_of_nonneg (by omega : (0 : Int) ≤ i)]

theorem hexVal_digitChar (d : Nat) (h : d < 16) : hexVal (Nat.digitChar d) = d := by
  interval_cases d <;> decide

theorem isHexDigit_digitChar (d : Nat) (h : d < 16) : isHexDigit (Nat.digitChar d) = true := by
  interval_cases d <;> decide

theorem char_eq_of_toNat_eq (c : Char) (n : Nat) (h : c.toNat = n) : c = Char.ofNat n := by
  rw [← h, Char.ofNat_toNat]

theorem parseStrBody_u_escape (c : Char) (l : List Char) (h : c.toNat < 65536) :
    parseStrBody ('\\' :: 'u' :: hex4 c.toNat ++ l) =
      (parseStrBody l).map (fun p => (c :: p.1, p.2)) := by
  have h1 : c.toNat / 4096 % 16 < 16 := Nat.mod_lt _ (by norm_num)
  have h2 : c.toNat / 256 % 16 < 16 := Nat.mod_lt _ (by norm_num)
  have h3 : c.toNat / 16 % 16 < 16 := Nat.mod_lt _ (by norm_num)
  have h4 : c.toNat % 16 < 16 := Nat.mod_lt _ (by norm_num)
  have hre : 4096 * (c.toNat / 4096 % 16) + 256 * (c.toNat / 256 % 16) +
      16 * (c.toNat / 16 % 16) + c.toNat % 16 = c.toNat := by omega
  simp only [hex4, List.cons_append, List.nil_append, parseStrBody,
    isHexDigit_digitChar _ h1, isHexDigit_digitChar _ h2,
    isHexDigit_digitChar _ h3, isHexDigit_digitChar _ h4,
    hexVal_digitChar _ h1, hexVal_digitChar _ h2,
    hexVal_digitChar _ h3, hexVal_digitChar _ h4,
    Bool.and_self, if_true]
  rw [hre, Char.ofNat_toNat]
  simp

theorem parseStrBody_encodeStrBody (s : List Char) (rest : List Char)
    (hval : ∀ c ∈ s, c.toNat < 65536) :
    parseStrBody (encodeStrBody s ++ '"' :: rest) = some (s, rest) := by
  induction s with
  | nil => simp [encodeStrBody, parseStrBody]
  | cons c t ih =>
    have hc : c.toNat < 65536 := hval c (by simp)
    have ht := ih (fun x hx => hval x (by simp [hx]))
    rw [encodeStrBody, List.append_assoc]
    by_cases hq : c = '"'
    · subst hq
      simp [escapeChar, parseStrBody, unescChar, ht]
    · by_cases hb : c = '\\'
      · subst hb
        simp [escapeChar, parseStrBody, unescChar, ht]
      · by_cases hn : c = '\n'
        · subst hn
          simp [escapeChar, parseStrBody, unescChar, ht]
        · by_cases hr : c = '\r'
          · subst hr
            simp [escapeChar, parseStrBody, unescChar, ht]
          · by_cases htab : c = '\t'
            · subst htab
              simp [escapeChar, parseStrBody, unescChar, ht]
            · by_cases h8 : c.toNat = 8
              · have : c = Char.ofNat 8 := char_eq_of_toNat_eq c 8 h8
                subst this
                simp [escapeChar, parseStrBody, unescChar, ht]
              · by_cases h12 : c.toNat = 12
                · have : c = Char.ofNat 12 := char_eq_of_toNat_eq c 12 h12
                  subst this
                  simp [escapeChar, parseStrBody, unescChar, ht]
                · by_cases hu : c.toNat < 32 ∨ c.toNat ≥ 127
                  · rw [escapeChar, if_neg hq, if_neg hb, if_neg hn, if_neg hr,
                      if_neg htab, if_neg h8, if_neg h12, if_pos hu]
                    rw [List.cons_append, List.cons_append, ← List.cons_append,
                      ← List.cons_append]
                    rw [parseStrBody_u_escape c _ hc, ht]
                    simp
                  · rw [escapeChar, if_neg hq, if_neg hb, if_neg hn, if_neg hr,
                      if_neg htab, if_neg h8, if_neg h12, if_neg hu]
                    have hge : ¬ c.toNat < 32 := by omega
                    simp [parseStrBody, hq, hb, hge, ht]

theorem skipWs_cons_not_ws (c : Char) (l : List Char) (h : isWsChar c = false) :
    skipWs (c :: l) = c :: l := by
  simp [skipWs, List.dropWhile, h]

theorem skipWs_cons_ws (c : Char) (l : List Char) (h : isWsChar c = true) :
    skipWs (c :: l) = skipWs l := by
  simp [skipWs, List.dropWhile, h]

theorem skipWs_idem (l : List Char) : skipWs (skipWs l) = skipWs l := by
  induction l with
  | nil => rfl
  | cons c t ih =>
    by_cases h : isWsChar c = true
    · rw [skipWs_cons_ws c t h, ih]
    · rw [skipWs_cons_not_ws c t (by simpa using h), skipWs_cons_not_ws c t (by simpa using h)]

theorem parseVal_skipWs (fuel : Nat) (l : List Char) :
    parseVal fuel (skipWs l) = parseVal fuel l := by
  cases fuel with
  | zero => rfl
  | succ fuel => rw [parseVal, parseVal, skipWs_idem]

theorem parseVal_cons_ws (fuel : Nat) (c : Char) (l : List Char) (h : isWsChar c = true) :
    parseVal fuel (c :: l) = parseVal fuel l := by
  rw [← parseVal_skipWs fuel (c :: l), skipWs_cons_ws c l h, parseVal_skipWs]

theorem parseItems_cons_ws (fuel : Nat) (c : Char) (l : List Char) (h : isWsChar c = true) :
    parseItems fuel (c :: l) = parseItems fuel l := by
  cases fuel with
  | zero => rfl
  | succ fuel => rw [parseItems, parseItems, parseVal_cons_ws fuel c l h]

theorem parseMembers_cons_ws (fuel : Nat) (c : Char) (l : List Char) (h : isWsChar c = true) :
    parseMembers fuel (c :: l) = parseMembers fuel l := by
  cases fuel with
  | zero => rfl
  | succ fuel => rw [parseMembers, parseMembers, skipWs_cons_ws c l h]

theorem stripPre_self (ps cs : List Char) : stripPre ps (ps ++ cs) = some cs := by
  induction ps with
  | nil => rfl
  | cons p t ih => simp [stripPre, ih]

theorem sepJoin_nil : sepJoin [] = [] := rfl

theorem sepJoin_single (a : List Char) : sepJoin [a] = a := by
  simp [sepJoin]

theorem sepJoin_cons (a b : List Char) (ss : List (List Char)) :
    sepJoin (a :: b :: ss) = a ++ ',' :: ' ' :: sepJoin (b :: ss) := by
  simp [sepJoin, List.intersperse_cons_cons]

theorem sepJoin_cons_of_ne_nil (a : List Char) (ss : List (List Char)) (h : ss ≠ []) :
    sepJoin (a :: ss) = a ++ ',' :: ' ' :: sepJoin ss := by
  cases ss with
  | nil => exact absurd rfl h
  | cons b t => exact sepJoin_cons a b t

theorem objInsert_append (acc : List (String × Json)) (k : String) (v : Json)
    (h : acc.any (fun q => q.1 = k) = false) : objInsert acc k v = acc ++ [(k, v)] := by
  simp [objInsert, h]

theorem buildObj_aux (kvs : List (String × Json)) :
    ∀ acc, (∀ p ∈ kvs, acc.any (fun q => q.1 = p.1) = false) →
    (kvs.map Prod.fst).Nodup →
    kvs.foldl (fun a p => objInsert a p.1 p.2) acc = acc ++ kvs := by
  induction kvs with
  | nil => intro acc _ _; simp
  | cons hd t ih =>
    intro acc hdisj hnd
    have h1 : acc.any (fun q => q.1 = hd.1) = false := hdisj hd (by simp)
    have hnd2 : (t.map Prod.fst).Nodup := by
      simp only [List.map_cons, List.nodup_cons] at hnd
      exact hnd.2
    have hhd : hd.1 ∉ t.map Prod.fst := by
      simp only [List.map_cons, List.nodup_cons] at hnd
      exact hnd.1
    have hdisj2 : ∀ p ∈ t, (acc ++ [hd]).any (fun q => q.1 = p.1) = false := by
      intro p hp
      rw [List.any_append]
      have ha : acc.any (fun q => q.1 = p.1) = false := hdisj p (by simp [hp])
      have hb : [hd].any (fun q => q.1 = p.1) = false := by
        simp only [List.any_cons, List.any_nil, Bool.or_false, decide_eq_false_iff_not]
        intro heq
        exact hhd (by rw [heq]; exact List.mem_map_of_mem Prod.fst hp)
      rw [ha, hb]
      rfl
    simp only [List.foldl_cons]
    rw [objInsert_append acc hd.1 hd.2 h1]
    have := ih (acc ++ [hd]) (by simpa using hdisj2) hnd2
    simp only [Prod.mk.eta] at this
    rw [this]
    simp

theorem buildObj_self (kvs : List (String × Json)) (h : (kvs.map Prod.fst).Nodup) :
    buildObj kvs = kvs := by
  have := buildObj_aux kvs [] (by intro p _; rfl) h
  simpa [buildObj] using this

theorem isDigit_ne_markers (c : Char) (h : c.isDigit = true) :
    c ≠ 'n' ∧ c ≠ 't' ∧ c ≠ 'f' ∧ c ≠ '"' ∧ c ≠ '[' ∧ c ≠ '\x7b' ∧
    c ≠ ']' ∧ c ≠ '\x7d' ∧ c ≠ ',' ∧ c ≠ ':' ∧ c ≠ '-' := by
  refine ⟨?_, ?_, ?_, ?_, ?_, ?_, ?_, ?_, ?_, ?_, ?_⟩ <;>
    (intro heq; subst heq; exact absurd h (by decide))

theorem isWsChar_of_digit (c : Char) (h : c.isDigit = true) : isWsChar c = false := by
  rcases Bool.eq_false_or_eq_true (isWsChar c) with hw | hw
  · exfalso
    unfold isWsChar at hw
    simp only [Bool.or_eq_true, decide_eq_true_eq] at hw
    rcases hw with ((rfl | rfl) | rfl) | rfl <;> exact absurd h (by decide)
  · exact hw

/-- Head character of any serialized JSON value: never whitespace and never a
structural delimiter that terminates an enclosing context. -/
theorem encodeJ_head (j : Json) : ∃ c t, encodeJ j = c :: t ∧ isWsChar c = false ∧
    c ≠ ']' ∧ c ≠ '\x7d' ∧ c ≠ ',' ∧ c ≠ ':' := by
  cases j with
  | null => exact ⟨'n', ['u', 'l', 'l'], rfl, by decide, by decide, by decide, by decide, by decide⟩
  | bool b =>
    cases b with
    | true =>
      exact ⟨'t', ['r', 'u', 'e'], rfl, by decide, by decide, by decide, by decide, by decide⟩
    | false =>
      exact ⟨'f', ['a', 'l', 's', 'e'], rfl, by decide, by decide, by decide, by decide, by decide⟩
  | num i =>
    by_cases hneg : i < 0
    · refine ⟨'-', natChars i.natAbs, ?_, by decide, by decide, by decide, by decide, by decide⟩
      simp [encodeJ, intChars, hneg]
    · rcases digit_head_natChars i.natAbs with ⟨c, t, hct, hdig⟩
      have hm := isDigit_ne_markers c hdig
      refine ⟨c, t, ?_, isWsChar_of_digit c hdig, hm.2.2.2.2.2.2.1, hm.2.2.2.2.2.2.2.1,
        hm.2.2.2.2.2.2.2.2.1, hm.2.2.2.2.2.2.2.2.2.1⟩
      simp [encodeJ, intChars, hneg, hct]
  | str s =>
    exact ⟨'"', encodeStrBody s.data ++ ['"'], rfl, by decide, by decide, by decide,
      by decide, by decide⟩
  | arr xs =>
    exact ⟨'[', sepJoin (encodeList xs) ++ [']'], rfl, by decide, by decide, by decide,
      by decide, by decide⟩
  | obj kvs =>
    exact ⟨'\x7b', sepJoin (encodePairs kvs) ++ ['\x7d'], rfl, by decide, by decide, by decide,
      by decide, by decide⟩

theorem parseVal_null_enc (fuel : Nat) (rest : List Char) :
    parseVal (fuel + 1) (encodeJ .null ++ rest) = some (.null, rest) := by
  show parseVal (fuel + 1) ('n' :: 'u' :: 'l' :: 'l' :: rest) = some (.null, rest)
  rw [parseVal, skipWs_cons_not_ws _ _ (by decide)]
  simp [stripPre]

theorem parseVal_true_enc (fuel : Nat) (rest : List Char) :
    parseVal (fuel + 1) (encodeJ (.bool true) ++ rest) = some (.bool true, rest) := by
  show parseVal (fuel + 1) ('t' :: 'r' :: 'u' :: 'e' :: rest) = some (.bool true, rest)
  rw [parseVal, skipWs_cons_not_ws _ _ (by decide)]
  simp [stripPre]

theorem parseVal_false_enc (fuel : Nat) (rest : List Char) :
    parseVal (fuel + 1) (encodeJ (.bool false) ++ rest) = some (.bool false, rest) := by
  show parseVal (fuel + 1) ('f' :: 'a' :: 'l' :: 's' :: 'e' :: rest) = some (.bool false, rest)
  rw [parseVal, skipWs_cons_not_ws _ _ (by decide)]
  simp [stripPre]

theorem parseVal_str_enc (fuel : Nat) (s : String) (rest : List Char)
    (h : validStr s = true) :
    parseVal (fuel + 1) (encodeJ (.str s) ++ rest) = some (.str s, rest) := by
  have hbody : parseStrBody (encodeStrBody s.data ++ '"' :: rest) = some (s.data, rest) := by
    apply parseStrBody_encodeStrBody
    intro c hc
    have := (List.all_eq_true.mp h) c hc
    simpa using this
  have hshape : encodeJ (Json.str s) ++ rest = '"' :: (encodeStrBody s.data ++ '"' :: rest) := by
    show ('"' :: encodeStrBody s.data ++ ['"']) ++ rest = _
    simp
  rw [hshape, parseVal, skipWs_cons_not_ws _ _ (by decide)]
  simp [hbody]

theorem parseVal_num_enc (fuel : Nat) (i : Int) (rest : List Char)
    (hrest : noDigitHead rest) :
    parseVal (fuel + 1) (encodeJ (.num i) ++ rest) = some (.num i, rest) := by
  have hp := parseNum_intChars i rest hrest
  show parseVal (fuel + 1) (intChars i ++ rest) = some (.num i, rest)
  by_cases hneg : i < 0
  · rw [intChars, if_pos hneg] at hp ⊢
    rw [List.cons_append] at hp ⊢
    rw [parseVal, skipWs_cons_not_ws _ _ (by decide)]
    simp [hp]
  · rw [intChars, if_neg hneg] at hp ⊢
    rcases digit_head_natChars i.natAbs with ⟨c, t, hct, hdig⟩
    have hm := isDigit_ne_markers c hdig
    rw [hct] at hp ⊢
    rw [List.cons_append] at hp ⊢
    rw [parseVal, skipWs_cons_not_ws _ _ (isWsChar_of_digit c hdig)]
    simp [hm.1, hm.2.1, hm.2.2.1, hm.2.2.2.1, hm.2.2.2.2.1, hm.2.2.2.2.2.1, hdig, hp]

theorem sizeJ_pos (j : Json) : 1 ≤ sizeJ j := by
  cases j <;> simp [sizeJ]

/-- Induction bundle: the parser inverts the serializer on values. -/
def ParsesVal (fuel : Nat) : Prop :=
  ∀ j rest, jvalid j = true → sizeJ j ≤ fuel → noDigitHead rest →
    parseVal fuel (encodeJ j ++ rest) = some (j, rest)

/-- Induction bundle: the parser inverts the serializer on array bodies. -/
def ParsesItems (fuel : Nat) : Prop :=
  ∀ vs rest, vs ≠ [] → jvalidL vs = true → sizeL vs ≤ fuel →
    parseItems fuel (sepJoin (encodeList vs) ++ ']' :: rest) = some (vs, rest)

/-- Induction bundle: the parser inverts the serializer on object bodies. -/
def ParsesMembers (fuel : Nat) : Prop :=
  ∀ kvs rest, kvs ≠ [] → jvalidP kvs = true → sizeP kvs ≤ fuel →
    parseMembers fuel (sepJoin (encodePairs kvs) ++ '\x7d' :: rest) = some (kvs, rest)

theorem parse_encode_bundle (fuel : Nat) :
    ParsesVal fuel ∧ ParsesItems fuel ∧ ParsesMembers fuel := by
  induction fuel with
  | zero =>
    refine ⟨?_, ?_, ?_⟩
    · intro j rest _ hsz _
      have := sizeJ_pos j
      omega
    · intro vs rest hne _ hsz
      cases vs with
      | nil => exact absurd rfl hne
      | cons v t =>
        have := sizeJ_pos v
        rw [sizeL] at hsz
        omega
    · intro kvs rest hne _ hsz
      cases kvs with
      | nil => exact absurd rfl hne
      | cons p t =>
        obtain ⟨a, b⟩ := p
        have := sizeJ_pos b
        rw [sizeP] at hsz
        omega
  | succ fuel ih =>
    obtain ⟨ihV, ihI, ihM⟩ := ih
    refine ⟨?_, ?_, ?_⟩
    · -- values
      intro j rest hv hsz hrest
      cases j with
      | null => exact parseVal_null_enc fuel rest
      | bool b =>
        cases b with
        | true => exact parseVal_true_enc fuel rest
        | false => exact parseVal_false_enc fuel rest
      | num i => exact parseVal_num_enc fuel i rest hrest
      | str s => exact parseVal_str_enc fuel s rest (by simpa [jvalid] using hv)
      | arr xs =>
        cases xs with
        | nil =>
          have hshape : encodeJ (Json.arr []) ++ rest = '[' :: ']' :: rest := by
            show ('[' :: sepJoin (encodeList []) ++ [']']) ++ rest = _
            simp [encodeList, sepJoin]
          rw [hshape, parseVal, skipWs_cons_not_ws _ _ (by decide)]
          simp [skipWs_cons_not_ws ']' rest (by decide)]
        | cons v vs =>
          rcases encodeJ_head v with ⟨c, t, hct, hws, hrb, hcb, hcm, hcl⟩
          have hdecomp : ∃ u, sepJoin (encodeList (v :: vs)) = c :: u := by
            cases vs with
            | nil =>
              refine ⟨t, ?_⟩
              simp [encodeList, sepJoin_single, hct]
            | cons w ws =>
              refine ⟨t ++ ',' :: ' ' :: sepJoin (encodeList (w :: ws)), ?_⟩
              rw [encodeList, encodeList, sepJoin_cons, hct]
              simp
          rcases hdecomp with ⟨u, hu⟩
          have hitems := ihI (v :: vs) rest (by simp) (by simpa [jvalid] using hv)
            (by simp [sizeJ] at hsz; omega)
          have hshape : encodeJ (Json.arr (v :: vs)) ++ rest =
              '[' :: (sepJoin (encodeList (v :: vs)) ++ ']' :: rest) := by
            show ('[' :: sepJoin (encodeList (v :: vs)) ++ [']']) ++ rest = _
            simp
          rw [hshape, parseVal, skipWs_cons_not_ws _ _ (by decide)]
          rw [hu] at hitems ⊢
          rw [List.cons_append] at hitems ⊢
          simp [skipWs_cons_not_ws c _ hws, hrb, hitems]
      | obj kvs =>
        cases kvs with
        | nil =>
          have hshape : encodeJ (Json.obj []) ++ rest = '\x7b' :: '\x7d' :: rest := by
            show ('\x7b' :: sepJoin (encodePairs []) ++ ['\x7d']) ++ rest = _
            simp [encodePairs, sepJoin]
          rw [hshape, parseVal, skipWs_cons_not_ws _ _ (by decide)]
          simp [skipWs_cons_not_ws '\x7d' rest (by decide), buildObj]
        | cons p ps =>
          obtain ⟨k, v⟩ := p
          have hvp : jvalidP ((k, v) :: ps) = true := by
            simp only [jvalid, Bool.and_eq_true] at hv
            exact hv.2
          have hnd : (((k, v) :: ps).map Prod.fst).Nodup := by
            simp only [jvalid, Bool.and_eq_true] at hv
            simpa using hv.1
          have hmem := ihM ((k, v) :: ps) rest (by simp) hvp
            (by simp [sizeJ] at hsz; omega)
          have hshape : encodeJ (Json.obj ((k, v) :: ps)) ++ rest =
              '\x7b' :: (sepJoin (encodePairs ((k, v) :: ps)) ++ '\x7d' :: rest) := by
            show ('\x7b' :: sepJoin (encodePairs ((k, v) :: ps)) ++ ['\x7d']) ++ rest = _
            simp
          have hdecomp : ∃ u, sepJoin (encodePairs ((k, v) :: ps)) = '"' :: u := by
            cases ps with
            | nil =>
              refine ⟨encodeStrBody k.data ++ ['"'] ++ ':' :: ' ' :: encodeJ v, ?_⟩
              rw [encodePairs, encodePairs, sepJoin_single]
              show ('"' :: encodeStrBody k.data ++ ['"']) ++ ':' :: ' ' :: encodeJ v = _
              simp
            | cons q qs =>
              refine ⟨encodeStrBody k.data ++ ['"'] ++ ':' :: ' ' :: encodeJ v ++
                ',' :: ' ' :: sepJoin (encodePairs (q :: qs)), ?_⟩
              rw [encodePairs, encodePairs, sepJoin_cons]
              show ('"' :: encodeStrBody k.data ++ ['"']) ++ ':' :: ' ' :: encodeJ v ++ _ = _
              simp
          rcases hdecomp with ⟨u, hu⟩
          rw [hshape, parseVal, skipWs_cons_not_ws _ _ (by decide)]
          rw [hu] at hmem ⊢
          rw [List.cons_append] at hmem ⊢
          simp [skipWs_cons_not_ws '"' (u ++ '\x7d' :: rest) (by decide), hmem,
            buildObj_self _ hnd]
    · -- array items
      intro vs rest hne hv hsz
      cases vs with
      | nil => exact absurd rfl hne
      | cons v t =>
        have hvv : jvalid v = true := by
          simp only [jvalidL, Bool.and_eq_true] at hv
          exact hv.1
        have hvt : jvalidL t = true := by
          simp only [jvalidL, Bool.and_eq_true] at hv
          exact hv.2
        cases t with
        | nil =>
          have hval := ihV v (']' :: rest) hvv
            (by simp [sizeL] at hsz; omega) (by intro c hc; simp at hc; rw [← hc]; decide)
          have hshape : sepJoin (encodeList [v]) ++ ']' :: rest = encodeJ v ++ ']' :: rest := by
            rw [encodeList, encodeList, sepJoin_single]
          rw [parseItems, hshape, hval]
          simp [skipWs_cons_not_ws ']' rest (by decide)]
        | cons w ws =>
          have hval := ihV v (',' :: ' ' :: sepJoin (encodeList (w :: ws)) ++ ']' :: rest) hvv
            (by have := sizeJ_pos w; simp [sizeL] at hsz ⊢; omega)
            (by intro c hc; simp at hc; rw [← hc]; decide)
          have hitems := ihI (w :: ws) rest (by simp) hvt
            (by have := sizeJ_pos v; simp [sizeL] at hsz ⊢; omega)
          have hshape : sepJoin (encodeList (v :: w :: ws)) ++ ']' :: rest =
              encodeJ v ++ (',' :: ' ' :: sepJoin (encodeList (w :: ws)) ++ ']' :: rest) := by
            rw [encodeList, encodeList, sepJoin_cons]
            simp
          rw [parseItems, hshape, hval]
          have hws1 := skipWs_cons_not_ws ','
            (' ' :: (sepJoin (encodeList (w :: ws)) ++ ']' :: rest)) (by decide)
          have hwsi := parseItems_cons_ws fuel ' '
            (sepJoin (encodeList (w :: ws)) ++ ']' :: rest) (by decide)
          simp [hws1, hwsi, hitems]
    · -- object members
      intro kvs rest hne hv hsz
      cases kvs with
      | nil => exact absurd rfl hne
      | cons p t =>
        obtain ⟨k, v⟩ := p
        have hvk : validStr k = true := by
          simp only [jvalidP, Bool.and_eq_true] at hv
          exact hv.1.1
        have hvv : jvalid v = true := by
          simp only [jvalidP, Bool.and_eq_true] at hv
          exact hv.1.2
        have hvt : jvalidP t = true := by
          simp only [jvalidP, Bool.and_eq_true] at hv
          exact hv.2
        have hkey : ∀ rest2, parseStrBody (encodeStrBody k.data ++ '"' :: rest2) =
            some (k.data, rest2) := by
          intro rest2
          apply parseStrBody_encodeStrBody
          intro c hc
          have := (List.all_eq_true.mp hvk) c hc
          simpa using this
        cases t with
        | nil =>
          have hval := ihV v ('\x7d' :: rest) hvv
            (by simp [sizeP] at hsz; omega) (by intro c hc; simp at hc; rw [← hc]; decide)
          have hshape : sepJoin (encodePairs [(k, v)]) ++ '\x7d' :: rest =
              '"' :: (encodeStrBody k.data ++
                '"' :: (':' :: ' ' :: (encodeJ v ++ '\x7d' :: rest))) := by
            rw [encodePairs, encodePairs, sepJoin_single]
            show ('"' :: encodeStrBody k.data ++ ['"']) ++ ':' :: ' ' :: encodeJ v ++ _ = _
            simp
          have hws2 := skipWs_cons_not_ws ':' (' ' :: (encodeJ v ++ '\x7d' :: rest)) (by decide)
          have hwsv := parseVal_cons_ws fuel ' ' (encodeJ v ++ '\x7d' :: rest) (by decide)
          have hws3 := skipWs_cons_not_ws '\x7d' rest (by decide)
          rw [parseMembers, hshape, skipWs_cons_not_ws '"' _ (by decide)]
          simp [hkey, hws2, hwsv, hval, hws3]
        | cons q qs =>
          obtain ⟨qk, qv⟩ := q
          have hval := ihV v
            (',' :: ' ' :: (sepJoin (encodePairs ((qk, qv) :: qs)) ++ '\x7d' :: rest)) hvv
            (by have := sizeJ_pos qv; simp [sizeP] at hsz ⊢; omega)
            (by intro c hc; simp at hc; rw [← hc]; decide)
          have hmem := ihM ((qk, qv) :: qs) rest (by simp) hvt
            (by have := sizeJ_pos v; simp [sizeP] at hsz ⊢; omega)
          have hshape : sepJoin (encodePairs ((k, v) :: (qk, qv) :: qs)) ++ '\x7d' :: rest =
              '"' :: (encodeStrBody k.data ++ '"' :: (':' :: ' ' :: (encodeJ v ++
                ',' :: ' ' :: (sepJoin (encodePairs ((qk, qv) :: qs)) ++ '\x7d' :: rest)))) := by
            rw [encodePairs,
              sepJoin_cons_of_ne_nil _ _ (by rw [encodePairs]; simp)]
            simp [encodeStrChars]
          have hws2 := skipWs_cons_not_ws ':' (' ' :: (encodeJ v ++
            ',' :: ' ' :: (sepJoin (encodePairs ((qk, qv) :: qs)) ++ '\x7d' :: rest))) (by decide)
          have hwsv := parseVal_cons_ws fuel ' ' (encodeJ v ++
            ',' :: ' ' :: (sepJoin (encodePairs ((qk, qv) :: qs)) ++ '\x7d' :: rest)) (by decide)
          have hws3 := skipWs_cons_not_ws ','
            (' ' :: (sepJoin (encodePairs ((qk, qv) :: qs)) ++ '\x7d' :: rest)) (by decide)
          have hwsm := parseMembers_cons_ws fuel ' '
            (sepJoin (encodePairs ((qk, qv) :: qs)) ++ '\x7d' :: rest) (by decide)
          rw [parseMembers, hshape, skipWs_cons_not_ws '"' _ (by decide)]
          simp [hkey, hws2, hwsv, hval, hws3, hwsm, hmem]

mutual

theorem sizeJ_le_lengthJ : ∀ j : Json, sizeJ j ≤ (encodeJ j).length
  | .null => by simp [sizeJ, encodeJ]
  | .bool true => by simp [sizeJ, encodeJ]
  | .bool false => by simp [sizeJ, encodeJ]
  | .num i => by
    have := natChars_ne_nil i.natAbs
    rcases List.exists_cons_of_ne_nil this with ⟨c, t, hct⟩
    by_cases hneg : i < 0 <;> simp [sizeJ, encodeJ, intChars, hneg, hct]
  | .str s => by simp [sizeJ, encodeJ, encodeStrChars]
  | .arr xs => by
    have := sizeL_le_lengthL xs
    simp only [sizeJ, encodeJ, List.length_cons, List.length_append]
    simp
    omega
  | .obj kvs => by
    have := sizeP_le_lengthP kvs
    simp only [sizeJ, encodeJ, List.length_cons, List.length_append]
    simp
    omega

theorem sizeL_le_lengthL : ∀ vs : List Json, sizeL vs ≤ (sepJoin (encodeList vs)).length + 1
  | [] => by simp [sizeL]
  | [v] => by
    have := sizeJ_le_lengthJ v
    rw [encodeList, encodeList, sepJoin_single, sizeL, sizeL]
    omega
  | v :: w :: ws => by
    have h1 := sizeJ_le_lengthJ v
    have h2 := sizeL_le_lengthL (w :: ws)
    rw [encodeList, sepJoin_cons_of_ne_nil _ _ (by rw [encodeList]; simp), sizeL]
    simp only [List.length_append, List.length_cons]
    omega

theorem sizeP_le_lengthP : ∀ kvs : List (String × Json),
    sizeP kvs ≤ (sepJoin (encodePairs kvs)).length + 1
  | [] => by simp [sizeP]
  | [(k, v)] => by
    have := sizeJ_le_lengthJ v
    rw [encodePairs, encodePairs, sepJoin_single, sizeP, sizeP]
    simp only [List.length_append, List.length_cons, encodeStrChars]
    omega
  | (k, v) :: q :: qs => by
    have h1 := sizeJ_le_lengthJ v
    have h2 := sizeP_le_lengthP (q :: qs)
    rw [encodePairs, sepJoin_cons_of_ne_nil _ _ (by obtain ⟨a, b⟩ := q; rw [encodePairs]; simp),
      sizeP]
    simp only [List.length_append, List.length_cons]
    omega

end

/-- Top-level corollary of the fuel induction. -/
theorem parseVal_encodeJ_of_le (j : Json) (rest : List Char) (fuel : Nat)
    (hv : jvalid j = true) (hf : sizeJ j ≤ fuel) (hrest : noDigitHead rest) :
    parseVal fuel (encodeJ j ++ rest) = some (j, rest) :=
  (parse_encode_bundle fuel).1 j rest hv hf hrest

/-- Serialization round trip: `json.loads` inverts `json.dumps` on every
valid value of the modelled JSON fragment. -/
theorem pyLoads_pyDumps (j : Json) (hv : jvalid j = true) : pyLoads (pyDumps j) = some j := by
  unfold pyLoads pyDumps pyLoadsChars
  have hfuel : sizeJ j ≤ (encodeJ j).length + 1 :=
    le_trans (sizeJ_le_lengthJ j) (by omega)
  have h := parseVal_encodeJ_of_le j [] ((encodeJ j).length + 1) hv hfuel
    (by intro c hc; simp at hc)
  rw [List.append_nil] at h
  simp [h, skipWs]

/-- Python `dict.get(k, d)` on a parsed JSON object. -/
def lookupD (kvs : List (String × Json)) (k : String) (d : Json) : Json :=
  match kvs.find? (fun p => p.1 = k) with
  | some p => p.2
  | none => d

/-- Python `v == s` for a string literal `s` against an arbitrary value. -/
def jsonEqStr (v : Json) (s : String) : Bool :=
  match v with
  | .str t => t = s
  | _ => false

/-- Python `is None` test on a value produced by `dict.get`. -/
def isNullJ : Json → Bool
  | .null => true
  | _ => false

/-- Python type name of a JSON value, as it appears in error messages. -/
def pyTypeName : Json → String
  | .null => "NoneType"
  | .bool _ => "bool"
  | .num _ => "int"
  | .str _ => "str"
  | .arr _ => "list"
  | .obj _ => "dict"

mutual

/-- Python `str()` of a JSON value, as interpolated by f-strings.  String
escaping inside `repr` of nested strings is not reproduced. -/
def pyStr : Json → String
  | .null => "None"
  | .bool true => "True"
  | .bool false => "False"
  | .num i => ⟨intChars i⟩
  | .str s => s
  | .arr xs => "[" ++ pyReprList xs ++ "]"
  | .obj kvs => "\x7b" ++ pyReprPairs kvs ++ "\x7d"

/-- Python `repr()` of a JSON value (used for elements of containers). -/
def pyRepr : Json → String
  | .null => "None"
  | .bool true => "True"
  | .bool false => "False"
  | .num i => ⟨intChars i⟩
  | .str s => "'" ++ s ++ "'"
  | .arr xs => "[" ++ pyReprList xs ++ "]"
  | .obj kvs => "\x7b" ++ pyReprPairs kvs ++ "\x7d"

/-- Comma-joined `repr`s of list elements. -/
def pyReprList : List Json → String
  | [] => ""
  | [x] => pyRepr x
  | x :: xs => pyRepr x ++ ", " ++ pyReprList xs

/-- Comma-joined `repr`s of dict items. -/
def pyReprPairs : List (String × Json) → String
  | [] => ""
  | [(k, v)] => "'" ++ k ++ "': " ++ pyRepr v
  | (k, v) :: rest => "'" ++ k ++ "': " ++ pyRepr v ++ ", " ++ pyReprPairs rest

end

/-- Detail string of a `json.JSONDecodeError`; the model keeps CPython's
typical first-column text rather than computing the true error position. -/
def jsonDecodeErrMsg : String := "Expecting value: line 1 column 1 (char 0)"

/-- Message of the `AttributeError` raised by calling `.get` on a non-dict. -/
def attrGetMsg (v : Json) : String :=
  "'" ++ pyTypeName v ++ "' object has no attribute 'get'"

/-- Caller-assigned JSON-RPC request id: `int | str` in `transport.py`. -/
inductive RpcId where
  | int : Int → RpcId
  | str : String → RpcId
  deriving Repr

/-- JSON value of a request id. -/
def RpcId.toJson : RpcId → Json
  | .int i => .num i
  | .str s => .str s

/-- JSON-RPC 2.0 request (`transport.py`, `JsonRpcRequest`). -/
structure JsonRpcRequest where
  method : String
  params : List (String × Json)
  id : RpcId

/-- The dict literal serialized by `JsonRpcRequest.to_json`. -/
def JsonRpcRequest.toJsonVal (r : JsonRpcRequest) : Json :=
  .obj [("jsonrpc", .str "2.0"), ("method", .str r.method),
    ("params", .obj r.params), ("id", r.id.toJson)]

/-- Model of `JsonRpcRequest.to_json`. -/
def JsonRpcRequest.to_json (r : JsonRpcRequest) : String := pyDumps r.toJsonVal

/-- Validity of a request for the modelled codec: BMP-only strings and
duplicate-free params object. -/
def JsonRpcRequest.valid (r : JsonRpcRequest) : Bool :=
  jvalid r.toJsonVal

/-- JSON-RPC 2.0 response (`transport.py`, `JsonRpcResponse`): fields read
with `parsed.get`, so an absent field is `None`, modelled as `Json.null`. -/
structure JsonRpcResponse where
  id : Json
  result : Json
  error : Json

/-- Model of `JsonRpcResponse.is_error` (`self.error is not None`). -/
def JsonRpcResponse.is_error (r : JsonRpcResponse) : Bool := !(isNullJ r.error)

/-- Model of `JsonRpcResponse.from_json`: `json.loads` then three `get`s.
`Except.error` is the exception propagated to the caller (a decode error on
garbage, or an `AttributeError` when the line is valid JSON but not an
object). -/
def JsonRpcResponse.from_json (data : String) : Except String JsonRpcResponse :=
  match pyLoads data with
  | some (.obj kvs) =>
    .ok ⟨lookupD kvs "id" .null, lookupD kvs "result" .null, lookupD kvs "error" .null⟩
  | some v => .error (attrGetMsg v)
  | none => .error jsonDecodeErrMsg

/-- Tool implementation (`server.py`, `ToolHandler`): declarative metadata
plus the `handle` function; a raised exception is `Except.error` with the
exception's message. -/
structure ToolHandler where
  name : String
  description : String
  parameters : List (String × Json)
  handle : Json → Except String Json

/-- Model of `ToolHandler.get_schema`. -/
def ToolHandler.get_schema (h : ToolHandler) : Json :=
  .obj [("name", .str h.name), ("description", .str h.description),
    ("parameters", .obj [("type", .str "object"), ("properties", .obj h.parameters)])]

/-- The worker's handler registry: `StdioToolServer._handlers`, a dict from
tool name to handler, modelled as an insertion-ordered association list. -/
def Handlers := List (String × ToolHandler)

/-- Python dict assignment `d[k] = v` on an insertion-ordered association
list: an existing key keeps its position, a new key is appended. -/
def dictInsert {α : Type} (l : List (String × α)) (k : String) (v : α) :
    List (String × α) :=
  if l.any (fun p => p.1 = k) then l.map (fun p => if p.1 = k then (k, v) else p)
  else l ++ [(k, v)]

/-- In-place update of the value stored under a key (mutation of the dict
value object referenced by `d[k]`). -/
def dictUpdate {α : Type} (l : List (String × α)) (k : String) (f : α → α) :
    List (String × α) :=
  l.map (fun p => if p.1 = k then (p.1, f p.2) else p)

/-- Python dict assignment for the handler registry. -/
def dictInsertH (hs : List (String × ToolHandler)) (k : String) (h : ToolHandler) :
    List (String × ToolHandler) :=
  dictInsert hs k h

/-- Model of `StdioToolServer.register`: an empty name is a `ValueError`. -/
def StdioToolServer.register (hs : List (String × ToolHandler)) (h : ToolHandler) :
    Except String (List (String × ToolHandler)) :=
  if h.name = "" then .error "ToolHandler has no name"
  else .ok (dictInsertH hs h.name h)

/-- The Python `str()` of a list of strings, as interpolated into the
unknown-tool message. -/
def pyListOfStr (names : List String) : String :=
  "[" ++ String.intercalate ", " (names.map (fun n => "'" ++ n ++ "'")) ++ "]"

/-- The unknown-tool error message of `StdioToolServer._dispatch`. -/
def unknownToolMsg (nm : String) (names : List String) : String :=
  "Unknown tool: '" ++ nm ++ "'. Available: " ++ pyListOfStr names

/-- Model of `StdioToolServer._dispatch`: route `ping`, `tools/list` and
`tools/call`; every raised exception becomes `Except.error` with its
message. -/
def StdioToolServer.dispatch (hs : List (String × ToolHandler)) (method params : Json) :
    Except String Json :=
  if jsonEqStr method "ping" then
    .ok (.obj [("status", .str "ok"), ("tools", .arr ((hs.map Prod.fst).map Json.str))])
  else if jsonEqStr method "tools/list" then
    .ok (.arr ((hs.map Prod.snd).map ToolHandler.get_schema))
  else if jsonEqStr method "tools/call" then
    match params with
    | .obj kvs =>
      let tool_params := lookupD kvs "arguments" (.obj [])
      match lookupD kvs "name" (.str "") with
      | .str nm =>
        match hs.find? (fun p => p.1 = nm) with
        | none => .error (unknownToolMsg nm (hs.map Prod.fst))
        | some p => p.2.handle tool_params
      | .arr _ => .error "unhashable type: 'list'"
      | .obj _ => .error "unhashable type: 'dict'"
      | other => .error (unknownToolMsg (pyStr other) (hs.map Prod.fst))
    | nonObj => .error (attrGetMsg nonObj)
  else .error ("Unknown method: '" ++ pyStr method ++ "'")

/-- The dict serialized by `StdioToolServer._write_result`. -/
def resultResponse (rid result : Json) : Json :=
  .obj [("jsonrpc", .str "2.0"), ("id", rid), ("result", result)]

/-- The dict serialized by `StdioToolServer._write_error`. -/
def errorResponse (rid : Json) (code : Int) (msg : String) : Json :=
  .obj [("jsonrpc", .str "2.0"), ("id", rid),
    ("error", .obj [("code", .num code), ("message", .str msg)])]

/-- Outcome of one iteration of the worker loop body on one input line. -/
inductive LineOut where
  | skip : LineOut
  | wrote : Json → LineOut
  | crash : String → LineOut

/-- One iteration of `StdioToolServer.run` on one line: strip, skip blanks,
parse (a failure yields the id-`null` `-32700` error response), read `id`,
`method`, `params` with `get` defaults, dispatch inside the `try` that
converts any exception to a `-32603` error response.  The only uncaught
exception is the `AttributeError` from `request.get` when the line parses to
a non-object, which crashes the loop. -/
def StdioToolServer.processLine (hs : List (String × ToolHandler)) (l : String) : LineOut :=
  let line := pyStrip l
  if line = "" then .skip
  else
    match pyLoads line with
    | none => .wrote (errorResponse .null (-32700) ("Parse error: " ++ jsonDecodeErrMsg))
    | some (.obj kvs) =>
      let request_id := lookupD kvs "id" .null
      let method := lookupD kvs "method" (.str "")
      let params := lookupD kvs "params" (.obj [])
      match StdioToolServer.dispatch hs method params with
      | .ok result => .wrote (resultResponse request_id result)
      | .error e => .wrote (errorResponse request_id (-32603) e)
    | some v => .crash (attrGetMsg v)

/-- Model of `StdioToolServer.run` over a finite input stream: the list of
response objects written to stdout (each line is its `pyDumps`), plus the
message of the uncaught exception if the loop died before end of input. -/
def StdioToolServer.run (hs : List (String × ToolHandler)) :
    List String → List Json × Option String
  | [] => ([], none)
  | l :: rest =>
    match StdioToolServer.processLine hs l with
    | .skip => StdioToolServer.run hs rest
    | .wrote r =>
      match StdioToolServer.run hs rest with
      | (out, c) => (r :: out, c)
    | .crash e => ([], some e)

/-- One child process ever spawned: its pid, the tool server it runs, and
whether it is still alive (`poll() is None`). -/
structure ToolProc where
  pid : Nat
  handlers : List (String × ToolHandler)
  alive : Bool

/-- Process environment: which commands launch which tool servers (`none`
models `Popen` raising, e.g. a missing executable), every process spawned so
far, and the next fresh pid. -/
structure World where
  launch : List String → Option (List (String × ToolHandler))
  procs : List ToolProc
  nextPid : Nat

/-- Liveness of a pid (`poll() is None`). -/
def World.procAlive (w : World) (pid : Nat) : Bool :=
  match w.procs.find? (fun p => p.pid = pid) with
  | some p => p.alive
  | none => false

/-- The tool server running in a pid. -/
def World.procHandlers (w : World) (pid : Nat) : Option (List (String × ToolHandler)) :=
  (w.procs.find? (fun p => p.pid = pid)).map ToolProc.handlers

/-- Effect of `terminate()`/`wait()`/`kill()`: the process is dead. -/
def World.terminate (w : World) (pid : Nat) : World :=
  { w with procs := w.procs.map (fun p => if p.pid = pid then { p with alive := false } else p) }

/-- Effect of a successful `subprocess.Popen`: a fresh live process. -/
def World.spawn (w : World) (hs : List (String × ToolHandler)) : World × Nat :=
  ({ w with procs := w.procs ++ [⟨w.nextPid, hs, true⟩], nextPid := w.nextPid + 1 }, w.nextPid)

/-- Observable process-lifecycle events of a transport operation. -/
inductive TEvent where
  | spawned : Nat → TEvent
  | terminated : Nat → TEvent
  deriving Repr, DecidableEq

/-- Model of `StdioTransport`: the configured command and environment, the
`_process` handle (a pid into the `World`), and the `_request_id` counter. -/
structure StdioTransport where
  command : List String
  env : Option (List (String × String))
  process : Option Nat
  request_id : Nat

/-- Model of `StdioTransport.__init__`. -/
def StdioTransport.init (command : List String) (env : Option (List (String × String))) :
    StdioTransport :=
  ⟨command, env, none, 0⟩

/-- Model of `StdioTransport.is_alive`: handle present and `poll() is None`. -/
def StdioTransport.is_alive (t : StdioTransport) (w : World) : Bool :=
  match t.process with
  | some pid => w.procAlive pid
  | none => false

/-- Model of `StdioTransport.stop`: terminate the child if a handle is held,
then clear the handle; a no-op otherwise. -/
def StdioTransport.stop (w : World) (t : StdioTransport) :
    World × StdioTransport × List TEvent :=
  match t.process with
  | some pid => (w.terminate pid, { t with process := none }, [.terminated pid])
  | none => (w, t, [])

/-- Message of the `FileNotFoundError` raised by `Popen` on a bad command. -/
def launchErrMsg (command : List String) : String :=
  "No such file or directory: '" ++ command.headD "" ++ "'"

/-- Model of `StdioTransport.start`: if a handle is held and the child still
runs, a full `stop()` first; then `Popen` (an `Except.error` when the launch
fails, leaving the state as mutated so far). -/
def StdioTransport.start (w : World) (t : StdioTransport) :
    World × StdioTransport × List TEvent × Except String Unit :=
  match
    (match t.process with
     | some pid => if w.procAlive pid then StdioTransport.stop w t else (w, t, [])
     | none => (w, t, []))
  with
  | (w1, t1, evs) =>
    match w1.launch t1.command with
    | none => (w1, t1, evs, .error (launchErrMsg t1.command))
    | some hs =>
      match w1.spawn hs with
      | (w2, pid) => (w2, { t1 with process := some pid }, evs ++ [.spawned pid], .ok ())

/-- Model of `StdioTransport.next_id`: increment, then return the counter. -/
def StdioTransport.next_id (t : StdioTransport) : Nat × StdioTransport :=
  (t.request_id + 1, { t with request_id := t.request_id + 1 })

/-- The response line the worker process writes for one request line, if
any: `none` when the worker writes nothing (it skipped the line or died), in
which case the controller's blocking `readline` returns empty. -/
def serverRespondLine (hs : List (String × ToolHandler)) (l : String) : Option String :=
  match StdioToolServer.processLine hs l with
  | .wrote r => some (pyDumps r)
  | _ => none

/-- Message of the `RuntimeError` raised by `send` on an empty read (the
drained stderr text is not modelled). -/
def deadProcMsg : String := "Tool server process died. stderr: "

/-- Message of the `RuntimeError` raised by `send` when the transport is not
running. -/
def notRunningTransportMsg : String := "Transport not running. Call start() first."

/-- Model of `StdioTransport.send`: liveness check, write one framed request
line, read back the one response line the worker wrote and parse it. -/
def StdioTransport.send (w : World) (t : StdioTransport) (req : JsonRpcRequest) :
    Except String JsonRpcResponse :=
  if t.is_alive w then
    match t.process.bind (fun pid => w.procHandlers pid) with
    | some hs =>
      match serverRespondLine hs req.to_json with
      | some line => JsonRpcResponse.from_json (pyStrip line)
      | none => .error deadProcMsg
    | none => .error deadProcMsg
  else .error notRunningTransportMsg

/-- One manager registration (`manager.py`, the per-server dict). -/
structure ServerEntry where
  command : List String
  env : Option (List (String × String))
  transport : Option StdioTransport
  tools : Json

/-- Model of `ToolServerManager`: `_servers`, an insertion-ordered dict from
server id to registration. -/
structure ToolServerManager where
  servers : List (String × ServerEntry)

/-- A manager with no registrations (`ToolServerManager.__init__`). -/
def ToolServerManager.empty : ToolServerManager := ⟨[]⟩

/-- Python dict assignment for the registration dict. -/
def dictInsertS (m : List (String × ServerEntry)) (k : String) (v : ServerEntry) :
    List (String × ServerEntry) :=
  dictInsert m k v

/-- Model of `ToolServerManager.register_server`: unconditionally store a
fresh registration (no transport, empty tools) under the id. -/
def ToolServerManager.register_server (m : ToolServerManager) (server_id : String)
    (command : List String) (env : Option (List (String × String))) : ToolServerManager :=
  ⟨dictInsertS m.servers server_id ⟨command, env, none, .arr []⟩⟩

/-- `self._servers.get(server_id)`. -/
def ToolServerManager.lookup (m : ToolServerManager) (server_id : String) : Option ServerEntry :=
  (m.servers.find? (fun p => p.1 = server_id)).map Prod.snd

/-- `server["transport"] = t` (mutation of the registration in place). -/
def ToolServerManager.setTransport (m : ToolServerManager) (server_id : String)
    (t : Option StdioTransport) : ToolServerManager :=
  ⟨dictUpdate m.servers server_id (fun e => { e with transport := t })⟩

/-- `server["tools"] = ts` (mutation of the registration in place). -/
def ToolServerManager.setTools (m : ToolServerManager) (server_id : String)
    (ts : Json) : ToolServerManager :=
  ⟨dictUpdate m.servers server_id (fun e => { e with tools := ts })⟩

/-- Python truthiness of a JSON value (for `response.result or []`). -/
def jsonFalsy : Json → Bool
  | .null => true
  | .bool b => !b
  | .num i => i == 0
  | .str s => s == ""
  | .arr xs => xs.isEmpty
  | .obj kvs => kvs.isEmpty

/-- Model of `response.result or []`. -/
def orEmptyList (v : Json) : Json := if jsonFalsy v then .arr [] else v

/-- Message of the `ValueError` for an unregistered server id. -/
def unknownServerMsg (sid : String) : String := "Unknown server: " ++ sid

/-- Message of the `RuntimeError` when discovery returns an error response. -/
def discoverFailMsg (sid : String) (err : Json) : String :=
  "Failed to discover tools from " ++ sid ++ ": " ++ pyStr err

/-- Model of `ToolServerManager.start`: construct a fresh transport, start
it, store it on the registration, issue `tools/list` with a fresh request
id, and cache the discovered schemas.  Failures are `Except.error` with the
manager and world as mutated up to the raise (in particular the registration
keeps the new transport once it was assigned). -/
def ToolServerManager.start (w : World) (m : ToolServerManager) (sid : String) :
    World × ToolServerManager × List TEvent × Except String Json :=
  match m.lookup sid with
  | none => (w, m, [], .error (unknownServerMsg sid))
  | some entry =>
    match StdioTransport.start w (StdioTransport.init entry.command entry.env) with
    | (w1, _, evs, .error e) => (w1, m, evs, .error e)
    | (w1, t1, evs, .ok _) =>
      match t1.next_id with
      | (rid, t2) =>
        let m1 := m.setTransport sid (some t2)
        match StdioTransport.send w1 t2 ⟨"tools/list", [], .int (rid : Int)⟩ with
        | .error e => (w1, m1, evs, .error e)
        | .ok resp =>
          if resp.is_error then
            (w1, m1, evs, .error (discoverFailMsg sid resp.error))
          else
            (w1, m1.setTools sid (orEmptyList resp.result), evs, .ok (orEmptyList resp.result))

/-- Recursion of `start_all` over a snapshot of the registered ids. -/
def ToolServerManager.startAllAux (w : World) (m : ToolServerManager) :
    List String → World × ToolServerManager × List (String × Json)
  | [] => (w, m, [])
  | sid :: rest =>
    match ToolServerManager.start w m sid with
    | (w1, m1, _, .ok tools) =>
      match ToolServerManager.startAllAux w1 m1 rest with
      | (w2, m2, results) => (w2, m2, (sid, tools) :: results)
    | (w1, m1, _, .error _) =>
      match ToolServerManager.startAllAux w1 m1 rest with
      | (w2, m2, results) => (w2, m2, (sid, .arr []) :: results)

/-- Model of `ToolServerManager.start_all`: start every registered server,
catching any per-server failure and recording `[]` for it; total, so the
call itself never raises. -/
def ToolServerManager.start_all (w : World) (m : ToolServerManager) :
    World × ToolServerManager × List (String × Json) :=
  ToolServerManager.startAllAux w m (m.servers.map Prod.fst)

/-- Model of `ToolServerManager.stop`: stop and detach the transport when
one is attached; otherwise a no-op.  The cached tools are untouched. -/
def ToolServerManager.stop (w : World) (m : ToolServerManager) (sid : String) :
    World × ToolServerManager :=
  match m.lookup sid with
  | some entry =>
    match entry.transport with
    | some t =>
      match StdioTransport.stop w t with
      | (w1, _, _) => (w1, m.setTransport sid none)
    | none => (w, m)
  | none => (w, m)

/-- Model of `ToolServerManager.stop_all`. -/
def ToolServerManager.stop_all (w : World) (m : ToolServerManager) :
    World × ToolServerManager :=
  (m.servers.map Prod.fst).foldl (fun p sid => ToolServerManager.stop p.1 p.2 sid) (w, m)

/-- Message of the `RuntimeError` for calling a server that is not running. -/
def notRunningMsg (sid : String) : String :=
  "Server " ++ sid ++ " is not running. Call start() first."

/-- Message of the `RuntimeError` for a worker-reported tool call failure. -/
def toolCallFailMsg (sid tool : String) (err : Json) : String :=
  "Tool call failed (" ++ sid ++ "/" ++ tool ++ "): " ++ pyStr err

/-- Model of `ToolServerManager.call`: look up the registration, require a
live transport, send `tools/call` with a fresh request id, and return
`response.result` (or raise on a reported error). -/
def ToolServerManager.call (w : World) (m : ToolServerManager) (sid tool : String)
    (arguments : List (String × Json)) :
    ToolServerManager × Except String Json :=
  match m.lookup sid with
  | none => (m, .error (unknownServerMsg sid))
  | some entry =>
    match entry.transport with
    | none => (m, .error (notRunningMsg sid))
    | some t =>
      if t.is_alive w then
        match t.next_id with
        | (rid, t2) =>
          let m1 := m.setTransport sid (some t2)
          match StdioTransport.send w t2
            ⟨"tools/call", [("name", .str tool), ("arguments", .obj arguments)],
              .int (rid : Int)⟩ with
          | .error e => (m1, .error e)
          | .ok resp =>
            if resp.is_error then (m1, .error (toolCallFailMsg sid tool resp.error))
            else (m1, .ok resp.result)
      else (m, .error (notRunningMsg sid))

/-- Model of `ToolServerManager.list_tools` (`[]` for an unknown id). -/
def ToolServerManager.list_tools (m : ToolServerManager) (sid : String) : Json :=
  match m.lookup sid with
  | some entry => entry.tools
  | none => .arr []

/-- Model of `ToolServerManager.is_running`. -/
def ToolServerManager.is_running (w : World) (m : ToolServerManager) (sid : String) : Bool :=
  match m.lookup sid with
  | some entry =>
    match entry.transport with
    | some t => t.is_alive w
    | none => false
  | none => false

/-- Model of `ToolServerManager.list_servers`. -/
def ToolServerManager.list_servers (w : World) (m : ToolServerManager) :
    List (String × Bool) :=
  m.servers.map (fun p =>
    (p.1, match p.2.transport with
          | some t => t.is_alive w
          | none => false))

theorem find?_dictInsert_self {α : Type} (l : List (String × α)) (k : String) (v : α) :
    (dictInsert l k v).find? (fun p => p.1 = k) = some (k, v) := by
  unfold dictInsert
  by_cases h : l.any (fun p => p.1 = k) = true
  · rw [if_pos h]
    induction l with
    | nil => simp at h
    | cons hd t ih =>
      by_cases hk : hd.1 = k
      · simp [List.find?, hk]
      · have ht : t.any (fun p => p.1 = k) = true := by
          simp only [List.any_cons, Bool.or_eq_true, decide_eq_true_eq] at h
          rcases h with h | h
          · exact absurd h hk
          · simpa using h
        simp only [List.map_cons, if_neg hk, List.find?, decide_eq_false hk]
        exact ih ht
  · rw [if_neg h]
    induction l with
    | nil => simp [List.find?]
    | cons hd t ih =>
      have hk : ¬ hd.1 = k := by
        intro he
        exact h (by simp [List.any_cons, he])
      have ht : ¬ t.any (fun p => p.1 = k) = true := by
        intro he
        exact h (by simp [List.any_cons, he])
      simp only [List.cons_append, List.find?, decide_eq_false hk]
      exact ih ht

theorem find?_dictInsert_ne {α : Type} (l : List (String × α)) (k : String) (v : α)
    (k2 : String) (h : k2 ≠ k) :
    (dictInsert l k v).find? (fun p => p.1 = k2) = l.find? (fun p => p.1 = k2) := by
  unfold dictInsert
  by_cases hany : l.any (fun p => p.1 = k) = true
  · rw [if_pos hany]
    clear hany
    induction l with
    | nil => simp
    | cons hd t ih =>
      by_cases hk : hd.1 = k
      · have hne : ¬ (k = k2) := fun he => h (he.symm)
        have hne2 : ¬ (hd.1 = k2) := by rw [hk]; exact fun he => h he.symm
        simp only [List.map_cons, if_pos hk, List.find?, decide_eq_false hne,
          decide_eq_false hne2]
        exact ih
      · simp only [List.map_cons, if_neg hk, List.find?]
        cases hd2 : decide (hd.1 = k2) with
        | true => rfl
        | false => exact ih
  · rw [if_neg hany]
    induction l with
    | nil =>
      have hkk : ¬ (k = k2) := fun he => h he.symm
      simp [List.find?, decide_eq_false hkk]
    | cons hd t ih =>
      have ht : ¬ t.any (fun p => p.1 = k) = true := by
        intro he
        exact hany (by simp [List.any_cons, he])
      simp only [List.cons_append, List.find?]
      cases hd2 : decide (hd.1 = k2) with
      | true => rfl
      | false => exact ih ht

theorem map_fst_dictUpdate {α : Type} (l : List (String × α)) (k : String) (f : α → α) :
    (dictUpdate l k f).map Prod.fst = l.map Prod.fst := by
  unfold dictUpdate
  induction l with
  | nil => rfl
  | cons hd t ih =>
    by_cases hk : hd.1 = k
    · simp only [List.map_cons, if_pos hk, ih]
    · simp only [List.map_cons, if_neg hk, ih]

theorem find?_dictUpdate_ne {α : Type} (l : List (String × α)) (k : String) (f : α → α)
    (k2 : String) (h : k2 ≠ k) :
    (dictUpdate l k f).find? (fun p => p.1 = k2) = l.find? (fun p => p.1 = k2) := by
  unfold dictUpdate
  induction l with
  | nil => rfl
  | cons hd t ih =>
    by_cases hk : hd.1 = k
    · have hne : ¬ (hd.1 = k2) := by rw [hk]; exact fun he => h he.symm
      simp only [List.map_cons, if_pos hk, List.find?, decide_eq_false hne]
      exact ih
    · simp only [List.map_cons, if_neg hk, List.find?]
      cases hd2 : decide (hd.1 = k2) with
      | true => rfl
      | false => exact ih

theorem find?_dictUpdate_self {α : Type} (l : List (String × α)) (k : String) (f : α → α) :
    (dictUpdate l k f).find? (fun p => p.1 = k) =
      (l.find? (fun p => p.1 = k)).map (fun p => (p.1, f p.2)) := by
  unfold dictUpdate
  induction l with
  | nil => rfl
  | cons hd t ih =>
    by_cases hk : hd.1 = k
    · simp only [List.map_cons, if_pos hk, List.find?, decide_eq_true hk, hk]
      simp [← hk]
    · simp only [List.map_cons, if_neg hk, List.find?, decide_eq_false hk]
      exact ih

theorem lookup_setTransport_self (m : ToolServerManager) (sid : String)
    (t : Option StdioTransport) :
    (m.setTransport sid t).lookup sid =
      (m.lookup sid).map (fun e => { e with transport := t }) := by
  unfold ToolServerManager.setTransport ToolServerManager.lookup
  simp only [find?_dictUpdate_self]
  cases m.servers.find? (fun p => p.1 = sid) <;> rfl

theorem lookup_setTransport_ne (m : ToolServerManager) (sid sid2 : String)
    (t : Option StdioTransport) (h : sid2 ≠ sid) :
    (m.setTransport sid t).lookup sid2 = m.lookup sid2 := by
  unfold ToolServerManager.setTransport ToolServerManager.lookup
  simp only [find?_dictUpdate_ne _ _ _ _ h]

theorem lookup_setTools_self (m : ToolServerManager) (sid : String) (ts : Json) :
    (m.setTools sid ts).lookup sid = (m.lookup sid).map (fun e => { e with tools := ts }) := by
  unfold ToolServerManager.setTools ToolServerManager.lookup
  simp only [find?_dictUpdate_self]
  cases m.servers.find? (fun p => p.1 = sid) <;> rfl

theorem lookup_setTools_ne (m : ToolServerManager) (sid sid2 : String) (ts : Json)
    (h : sid2 ≠ sid) :
    (m.setTools sid ts).lookup sid2 = m.lookup sid2 := by
  unfold ToolServerManager.setTools ToolServerManager.lookup
  simp only [find?_dictUpdate_ne _ _ _ _ h]

theorem keys_setTransport (m : ToolServerManager) (sid : String) (t : Option StdioTransport) :
    (m.setTransport sid t).servers.map Prod.fst = m.servers.map Prod.fst := by
  unfold ToolServerManager.setTransport
  simp [map_fst_dictUpdate]

theorem keys_setTools (m : ToolServerManager) (sid : String) (ts : Json) :
    (m.setTools sid ts).servers.map Prod.fst = m.servers.map Prod.fst := by
  unfold ToolServerManager.setTools
  simp [map_fst_dictUpdate]

/-- The `id` field of a written response object. -/
def responseId (r : Json) : Json :=
  match r with
  | .obj kvs => lookupD kvs "id" .null
  | _ => .null

/-- The `error` field of a written response object. -/
def responseErr (r : Json) : Json :=
  match r with
  | .obj kvs => lookupD kvs "error" .null
  | _ => .null

/-- The `error.code` field of a written response object. -/
def responseErrCode (r : Json) : Option Int :=
  match responseErr r with
  | .obj ekvs =>
    match lookupD ekvs "code" .null with
    | .num c => some c
    | _ => none
  | _ => none

/-- The `error.message` field of a written response object. -/
def responseErrMsg (r : Json) : Option String :=
  match responseErr r with
  | .obj ekvs =>
    match lookupD ekvs "message" .null with
    | .str s => some s
    | _ => none
  | _ => none

/-- The id the worker reads from a request line (`request.get("id")`,
`null` when absent). -/
def requestIdOfLine (l : String) : Json :=
  match pyLoads (pyStrip l) with
  | some (.obj kvs) => lookupD kvs "id" .null
  | _ => .null

/-- Object recognizer. -/
def isObjJ : Json → Bool
  | .obj _ => true
  | _ => false

/-- A well-formed request line: non-blank after stripping, and parses to a
JSON object (the shape `run` handles without an uncaught exception). -/
def wellFormedLine (l : String) : Bool :=
  (!(pyStrip l == "")) &&
    (match pyLoads (pyStrip l) with
     | some v => isObjJ v
     | none => false)

theorem responseId_result (rid res : Json) : responseId (resultResponse rid res) = rid := rfl

theorem responseId_error (rid : Json) (code : Int) (msg : String) :
    responseId (errorResponse rid code msg) = rid := rfl

theorem responseErrCode_error (rid : Json) (code : Int) (msg : String) :
    responseErrCode (errorResponse rid code msg) = some code := rfl

theorem responseErrMsg_error (rid : Json) (code : Int) (msg : String) :
    responseErrMsg (errorResponse rid code msg) = some msg := rfl

theorem processLine_wellFormed (hs : List (String × ToolHandler)) (l : String)
    (hl : wellFormedLine l = true) :
    ∃ resp, StdioToolServer.processLine hs l = .wrote resp ∧
      responseId resp = requestIdOfLine l := by
  have h1 : ¬ (pyStrip l = "") := by
    intro he
    simp [wellFormedLine, he] at hl
  have h2 : ∃ kvs, pyLoads (pyStrip l) = some (.obj kvs) := by
    rcases hp : pyLoads (pyStrip l) with _ | v
    · simp [wellFormedLine, hp] at hl
    · cases v with
      | obj kvs => exact ⟨kvs, rfl⟩
      | _ => simp [wellFormedLine, hp, isObjJ] at hl
  rcases h2 with ⟨kvs, hp⟩
  have hreq : requestIdOfLine l = lookupD kvs "id" .null := by
    unfold requestIdOfLine
    rw [hp]
  cases hd : StdioToolServer.dispatch hs (lookupD kvs "method" (.str ""))
      (lookupD kvs "params" (.obj [])) with
  | ok result =>
    refine ⟨resultResponse (lookupD kvs "id" .null) result, ?_, by
      rw [hreq, responseId_result]⟩
    simp [StdioToolServer.processLine, h1, hp, hd]
  | error e =>
    refine ⟨errorResponse (lookupD kvs "id" .null) (-32603) e, ?_, by
      rw [hreq, responseId_error]⟩
    simp [StdioToolServer.processLine, h1, hp, hd]

/-- C1: for every finite sequence of well-formed request lines, the worker
dispatch loop (`StdioToolServer.run`) never dies, writes exactly one
response per request line, in request order, and the j-th response carries
the id of the j-th request. -/
theorem claim_C1_responses_in_order (hs : List (String × ToolHandler)) (lines : List String)
    (h : ∀ l ∈ lines, wellFormedLine l = true) :
    (StdioToolServer.run hs lines).2 = none ∧
    (StdioToolServer.run hs lines).1.length = lines.length ∧
    (StdioToolServer.run hs lines).1.map responseId = lines.map requestIdOfLine := by
  induction lines with
  | nil => simp [StdioToolServer.run]
  | cons l rest ih =>
    have hrest := ih (fun x hx => h x (by simp [hx]))
    rcases processLine_wellFormed hs l (h l (by simp)) with ⟨resp, hresp, hid⟩
    have hrun : StdioToolServer.run hs (l :: rest) =
        (resp :: (StdioToolServer.run hs rest).1, (StdioToolServer.run hs rest).2) := by
      rw [StdioToolServer.run, hresp]
    rw [hrun]
    refine ⟨hrest.1, ?_, ?_⟩
    · simp [hrest.2.1]
    · simp [hid, hrest.2.2]

/-- Closed instance of C1 at a concrete two-line input. -/
theorem claim_C1_responses_in_order_witness :
    (∀ l ∈ ["\x7b\"id\": 1, \"method\": \"ping\"\x7d",
            "\x7b\"id\": \"a\", \"method\": \"nope\"\x7d"], wellFormedLine l = true) ∧
    (StdioToolServer.run [] ["\x7b\"id\": 1, \"method\": \"ping\"\x7d",
        "\x7b\"id\": \"a\", \"method\": \"nope\"\x7d"]).1.map responseId =
      [Json.num 1, Json.str "a"] := by
  constructor
  · intro l hl
    fin_cases hl <;> rfl
  · have := claim_C1_responses_in_order []
      ["\x7b\"id\": 1, \"method\": \"ping\"\x7d", "\x7b\"id\": \"a\", \"method\": \"nope\"\x7d"]
      (by intro l hl
          fin_cases hl <;> rfl)
    rw [this.2.2]
    rfl

/-- C2: an unparseable non-blank line makes the loop write exactly one error
response with id `null` and code `-32700`, and the loop then continues with
the remaining lines exactly as if the malformed line had not occurred; it
never terminates the loop. -/
theorem claim_C2_parse_error_recovery (hs : List (String × ToolHandler)) (l : String)
    (rest : List String) (h1 : pyStrip l ≠ "") (h2 : pyLoads (pyStrip l) = none) :
    (StdioToolServer.run hs (l :: rest)).1 =
      errorResponse .null (-32700) ("Parse error: " ++ jsonDecodeErrMsg) ::
        (StdioToolServer.run hs rest).1 ∧
    (StdioToolServer.run hs (l :: rest)).2 = (StdioToolServer.run hs rest).2 ∧
    responseId (errorResponse .null (-32700) ("Parse error: " ++ jsonDecodeErrMsg)) =
      Json.null ∧
    responseErrCode (errorResponse .null (-32700) ("Parse error: " ++ jsonDecodeErrMsg)) =
      some (-32700) := by
  have hpl : StdioToolServer.processLine hs l =
      .wrote (errorResponse .null (-32700) ("Parse error: " ++ jsonDecodeErrMsg)) := by
    simp [StdioToolServer.processLine, h1, h2]
  have hrun : StdioToolServer.run hs (l :: rest) =
      (errorResponse .null (-32700) ("Parse error: " ++ jsonDecodeErrMsg) ::
        (StdioToolServer.run hs rest).1, (StdioToolServer.run hs rest).2) := by
    rw [StdioToolServer.run, hpl]
  rw [hrun]
  exact ⟨rfl, rfl, rfl, rfl⟩

/-- Closed instance of C2: a garbage line, then a valid ping. -/
theorem claim_C2_parse_error_recovery_witness :
    pyStrip "notjson" ≠ "" ∧ pyLoads (pyStrip "notjson") = none ∧
    (StdioToolServer.run [] ["notjson", "\x7b\"id\": 2, \"method\": \"ping\"\x7d"]).1 =
      [errorResponse .null (-32700) ("Parse error: " ++ jsonDecodeErrMsg),
       resultResponse (Json.num 2)
         (.obj [("status", .str "ok"), ("tools", .arr [])])] := by
  refine ⟨by decide, by rfl, ?_⟩
  have := claim_C2_parse_error_recovery [] "notjson"
    ["\x7b\"id\": 2, \"method\": \"ping\"\x7d"] (by decide) (by rfl)
  rw [this.1]
  rfl

/-- C6: a `tools/call` request naming an unregistered tool produces one
error response carrying the request's id, code `-32603`, and a message that
contains both the attempted tool name and the Python rendering of the list
of available tool names; the loop continues with the remaining lines. -/
theorem claim_C6_unknown_tool (hs : List (String × ToolHandler)) (l : String)
    (rest : List String) (kvs pkvs : List (String × Json)) (nm : String)
    (h1 : pyStrip l ≠ "")
    (h2 : pyLoads (pyStrip l) = some (.obj kvs))
    (hm : lookupD kvs "method" (.str "") = .str "tools/call")
    (hp : lookupD kvs "params" (.obj []) = .obj pkvs)
    (hn : lookupD pkvs "name" (.str "") = .str nm)
    (hf : hs.find? (fun p => p.1 = nm) = none) :
    (StdioToolServer.run hs (l :: rest)).1 =
      errorResponse (lookupD kvs "id" .null) (-32603)
        (unknownToolMsg nm (hs.map Prod.fst)) :: (StdioToolServer.run hs rest).1 ∧
    (StdioToolServer.run hs (l :: rest)).2 = (StdioToolServer.run hs rest).2 ∧
    responseErrCode (errorResponse (lookupD kvs "id" .null) (-32603)
      (unknownToolMsg nm (hs.map Prod.fst))) = some (-32603) ∧
    (∃ a b, unknownToolMsg nm (hs.map Prod.fst) = a ++ nm ++ b) ∧
    (∃ a b, unknownToolMsg nm (hs.map Prod.fst) =
      a ++ pyListOfStr (hs.map Prod.fst) ++ b) := by
  have hdisp : StdioToolServer.dispatch hs (lookupD kvs "method" (.str ""))
      (lookupD kvs "params" (.obj [])) =
      .error (unknownToolMsg nm (hs.map Prod.fst)) := by
    rw [hm, hp]
    simp [StdioToolServer.dispatch, jsonEqStr, hn, hf]
  have hpl : StdioToolServer.processLine hs l =
      .wrote (errorResponse (lookupD kvs "id" .null) (-32603)
        (unknownToolMsg nm (hs.map Prod.fst))) := by
    simp [StdioToolServer.processLine, h1, h2, hdisp]
  have hrun : StdioToolServer.run hs (l :: rest) =
      (errorResponse (lookupD kvs "id" .null) (-32603)
          (unknownToolMsg nm (hs.map Prod.fst)) :: (StdioToolServer.run hs rest).1,
        (StdioToolServer.run hs rest).2) := by
    rw [StdioToolServer.run, hpl]
  rw [hrun]
  refine ⟨rfl, rfl, rfl, ⟨"Unknown tool: '", "'. Available: " ++ pyListOfStr (hs.map Prod.fst), ?_⟩,
    ⟨"Unknown tool: '" ++ nm ++ "'. Available: ", "", ?_⟩⟩
  · simp [unknownToolMsg, String.append_assoc]
  · simp [unknownToolMsg, String.append_assoc]

/-- Closed instance of C6: calling a missing tool on a worker with one
registered `echo` tool. -/
theorem claim_C6_unknown_tool_witness :
    (StdioToolServer.run
      [("echo", ⟨"echo", "d", [], fun p => .ok p⟩)]
      ["\x7b\"id\": 5, \"method\": \"tools/call\", \"params\": \x7b\"name\": \"nope\"\x7d\x7d"]).1 =
      [errorResponse (Json.num 5) (-32603) (unknownToolMsg "nope" ["echo"])] ∧
    unknownToolMsg "nope" ["echo"] = "Unknown tool: 'nope'. Available: ['echo']" := by
  constructor
  · have := claim_C6_unknown_tool [("echo", ⟨"echo", "d", [], fun p => .ok p⟩)]
      "\x7b\"id\": 5, \"method\": \"tools/call\", \"params\": \x7b\"name\": \"nope\"\x7d\x7d"
      [] [("id", Json.num 5), ("method", Json.str "tools/call"),
          ("params", Json.obj [("name", Json.str "nope")])]
      [("name", Json.str "nope")] "nope"
      (by decide) (by rfl) (by rfl) (by rfl) (by rfl) (by rfl)
    rw [this.1]
    rfl
  · rfl

/-- C7: serializing a valid request with `JsonRpcRequest.to_json` and
parsing the line the way the worker does yields the same method, params and
id. -/
theorem claim_C7_request_roundtrip (r : JsonRpcRequest) (h : r.valid = true) :
    ∃ kvs, pyLoads r.to_json = some (.obj kvs) ∧
      lookupD kvs "method" (.str "") = .str r.method ∧
      lookupD kvs "params" (.obj []) = .obj r.params ∧
      lookupD kvs "id" .null = r.id.toJson := by
  have hrt := pyLoads_pyDumps r.toJsonVal h
  exact ⟨[("jsonrpc", .str "2.0"), ("method", .str r.method),
    ("params", .obj r.params), ("id", r.id.toJson)], hrt, rfl, rfl, rfl⟩

/-- Closed instance of C7 at a concrete `tools/call` request. -/
theorem claim_C7_request_roundtrip_witness :
    JsonRpcRequest.valid ⟨"tools/call",
      [("name", .str "echo"), ("arguments", .obj [("message", .str "hi")])], .int 7⟩ = true ∧
    ∃ kvs, pyLoads (JsonRpcRequest.to_json ⟨"tools/call",
        [("name", .str "echo"), ("arguments", .obj [("message", .str "hi")])], .int 7⟩) =
        some (.obj kvs) ∧
      lookupD kvs "method" (.str "") = .str "tools/call" ∧
      lookupD kvs "params" (.obj []) =
        .obj [("name", .str "echo"), ("arguments", .obj [("message", .str "hi")])] ∧
      lookupD kvs "id" .null = RpcId.toJson (.int 7) :=
  ⟨by decide, claim_C7_request_roundtrip _ (by decide)⟩

/-- Successive results of `next_id` on a transport. -/
def nextIdSeq : StdioTransport → Nat → List Nat
  | _, 0 => []
  | t, n + 1 =>
    match t.next_id with
    | (rid, t2) => rid :: nextIdSeq t2 n

theorem nextIdSeq_formula (t : StdioTransport) (n : Nat) :
    nextIdSeq t n = List.range' (t.request_id + 1) n := by
  induction n generalizing t with
  | zero => rfl
  | succ n ih =>
    rw [nextIdSeq, StdioTransport.next_id]
    simp only []
    rw [ih, List.range'_succ]

/-- C9: on a freshly constructed transport, successive `next_id` results are
exactly `1, 2, …, n`: strictly increasing, starting at 1, never repeating. -/
theorem claim_C9_next_id_monotonic (command : List String)
    (env : Option (List (String × String))) (n : Nat) :
    nextIdSeq (StdioTransport.init command env) n = List.range' 1 n ∧
    List.Pairwise (· < ·) (nextIdSeq (StdioTransport.init command env) n) ∧
    (0 < n → (nextIdSeq (StdioTransport.init command env) n).head? = some 1) := by
  have hf : nextIdSeq (StdioTransport.init command env) n = List.range' 1 n :=
    nextIdSeq_formula _ n
  refine ⟨hf, ?_, ?_⟩
  · rw [hf]
    exact List.pairwise_lt_range' 1 n 1 (by omega)
  · intro hn
    rw [hf]
    cases n with
    | zero => omega
    | succ n => rw [List.range'_succ]; rfl

/-- Closed instance of C9 at three successive ids. -/
theorem claim_C9_next_id_monotonic_witness :
    0 < 3 ∧ nextIdSeq (StdioTransport.init ["worker"] none) 3 = [1, 2, 3] ∧
    (nextIdSeq (StdioTransport.init ["worker"] none) 3).head? = some 1 :=
  ⟨by decide, by rfl, (claim_C9_next_id_monotonic ["worker"] none 3).2.2 (by decide)⟩

/-- C3 counterexample: re-registering an id with a different command does
not fail — `register_server` has no failure path at all (no `ConfigError`
exists in the code) — and it silently replaces the stored registration, so
the final stored command is the second one. -/
theorem claim_C3_register_no_config_error :
    (ToolServerManager.register_server
      (ToolServerManager.register_server ToolServerManager.empty
        "calc" ["python", "-m", "a"] none)
      "calc" ["python", "-m", "b"] none).servers =
    [("calc", ⟨["python", "-m", "b"], none, none, Json.arr []⟩)] := rfl

/-- C3 amended: `register_server` always succeeds; it stores a fresh
registration (the new command and env, no transport, empty tools) under the
id, overwriting any previous registration, and leaves every other id
unchanged. -/
theorem claim_C3_register_overwrites (m : ToolServerManager) (sid : String)
    (cmd : List String) (env : Option (List (String × String))) :
    (m.register_server sid cmd env).lookup sid = some ⟨cmd, env, none, .arr []⟩ ∧
    ∀ sid2, sid2 ≠ sid →
      (m.register_server sid cmd env).lookup sid2 = m.lookup sid2 := by
  constructor
  · unfold ToolServerManager.register_server ToolServerManager.lookup dictInsertS
    rw [find?_dictInsert_self]
    rfl
  · intro sid2 h
    unfold ToolServerManager.register_server ToolServerManager.lookup dictInsertS
    rw [find?_dictInsert_ne _ _ _ _ h]

/-- Closed instance of the amended C3. -/
theorem claim_C3_register_overwrites_witness :
    ("other" : String) ≠ "calc" ∧
    (ToolServerManager.empty.register_server "calc" ["b"] none).lookup "other" =
      ToolServerManager.empty.lookup "other" :=
  ⟨by decide,
    (claim_C3_register_overwrites ToolServerManager.empty "calc" ["b"] none).2 "other"
      (by decide)⟩

theorem procAlive_terminate_self (w : World) (pid : Nat) :
    (w.terminate pid).procAlive pid = false := by
  unfold World.terminate World.procAlive
  simp only []
  induction w.procs with
  | nil => rfl
  | cons p t ih =>
    by_cases hp : p.pid = pid
    · simp only [List.map_cons, if_pos hp, List.find?, decide_eq_true hp]
    · simp only [List.map_cons, if_neg hp, List.find?, decide_eq_false hp]
      exact ih

theorem procAlive_spawn_old (w : World) (hs : List (String × ToolHandler)) (pid : Nat)
    (h : pid ≠ w.nextPid) : (w.spawn hs).1.procAlive pid = w.procAlive pid := by
  unfold World.spawn World.procAlive
  simp only [List.find?_append]
  cases hold : w.procs.find? (fun p => p.pid = pid) with
  | some p => rfl
  | none =>
    simp only [Option.orElse_none, Option.none_orElse, List.find?]
    rw [decide_eq_false (by simpa using fun he => h he.symm)]
    rfl

theorem procAlive_terminate_spawn (w : World) (hs : List (String × ToolHandler)) (pid : Nat)
    (h : pid ≠ w.nextPid) :
    ((w.terminate pid).spawn hs).1.procAlive pid = false := by
  rw [procAlive_spawn_old _ _ _ (by simpa [World.terminate] using h)]
  exact procAlive_terminate_self w pid

/-- C4 counterexample: a transport already started (its handle holds pid 0)
whose child has exited.  A second `start()` performs no `stop()` at all (the
event trace has no `terminated` event) and rebinds the transport to a new
child without an intervening stop — contradicting the claim that a reentrant
`start()` always performs a full `stop()` first. -/
theorem claim_C4_start_without_stop :
    (⟨["worker"], none, some 0, 0⟩ : StdioTransport).process = some 0 ∧
    (StdioTransport.start ⟨fun _ => some [], [⟨0, [], false⟩], 1⟩
      ⟨["worker"], none, some 0, 0⟩).2.2.1 = [TEvent.spawned 1] ∧
    (StdioTransport.start ⟨fun _ => some [], [⟨0, [], false⟩], 1⟩
      ⟨["worker"], none, some 0, 0⟩).2.1.process = some 1 := by
  exact ⟨rfl, rfl, rfl⟩

/-- C4 amended: a reentrant `start()` performs a full `stop()` of the
current child first exactly when that child is still running (the first
trace event is its termination); when the child has already exited no
`stop()` happens, but in either case the previous child is not left running
after `start()` returns, so no live child process is ever leaked. -/
theorem claim_C4_reentrant_start (w : World) (t : StdioTransport) (pid : Nat)
    (hproc : t.process = some pid) (hfresh : pid ≠ w.nextPid) :
    (w.procAlive pid = true →
      ((StdioTransport.start w t).2.2.1.head? = some (.terminated pid))) ∧
    (w.procAlive pid = false →
      ∀ q, TEvent.terminated q ∉ (StdioTransport.start w t).2.2.1) ∧
    World.procAlive (StdioTransport.start w t).1 pid = false := by
  have hstop : StdioTransport.stop w t =
      (w.terminate pid, { t with process := none }, [.terminated pid]) := by
    unfold StdioTransport.stop
    rw [hproc]
  by_cases halive : w.procAlive pid = true
  · refine ⟨fun _ => ?_, fun hdead => ?_, ?_⟩
    · unfold StdioTransport.start
      rw [hproc]
      simp only [halive, if_true, hstop]
      cases hl : (w.terminate pid).launch t.command <;> simp [hl, World.spawn]
    · simp [halive] at hdead
    · unfold StdioTransport.start
      rw [hproc]
      simp only [halive, if_true, hstop]
      cases hl : (w.terminate pid).launch t.command with
      | none =>
        simp only [hl]
        exact procAlive_terminate_self w pid
      | some hs =>
        simp only [hl, World.spawn]
        exact procAlive_terminate_spawn w hs pid hfresh
  · have hdead : w.procAlive pid = false := by
      rcases Bool.eq_false_or_eq_true (w.procAlive pid) with h | h
      · exact absurd h halive
      · exact h
    refine ⟨?_, ?_, ?_⟩
    · intro h
      exact absurd h halive
    · intro _ q
      unfold StdioTransport.start
      rw [hproc]
      simp only [hdead, Bool.false_eq_true, if_false]
      cases hl : w.launch t.command <;> simp [hl, World.spawn]
    · unfold StdioTransport.start
      rw [hproc]
      simp only [hdead, Bool.false_eq_true, if_false]
      cases hl : w.launch t.command with
      | none =>
        simp only [hl]
        exact hdead
      | some hs =>
        simp only [hl, World.spawn]
        exact (procAlive_spawn_old w hs pid hfresh).trans hdead

/-- Closed instance of the amended C4: restarting over a live child leaves
that child dead afterwards. -/
theorem claim_C4_reentrant_start_witness :
    (⟨["w"], none, some 0, 0⟩ : StdioTransport).process = some 0 ∧ (0 : Nat) ≠ 1 ∧
    World.procAlive (StdioTransport.start ⟨fun _ => some [], [⟨0, [], true⟩], 1⟩
      ⟨["w"], none, some 0, 0⟩).1 0 = false :=
  ⟨rfl, by decide,
    (claim_C4_reentrant_start ⟨fun _ => some [], [⟨0, [], true⟩], 1⟩
      ⟨["w"], none, some 0, 0⟩ 0 rfl (by decide)).2.2⟩

theorem find?_procs_nextPid (w : World) (hwf : ∀ p ∈ w.procs, p.pid < w.nextPid) :
    w.procs.find? (fun p => p.pid = w.nextPid) = none := by
  rw [List.find?_eq_none]
  intro p hp
  have := hwf p hp
  simp
  omega

theorem procAlive_spawn_new (w : World) (hs : List (String × ToolHandler))
    (hwf : ∀ p ∈ w.procs, p.pid < w.nextPid) :
    (w.spawn hs).1.procAlive (w.spawn hs).2 = true := by
  unfold World.spawn World.procAlive
  simp only [List.find?_append, find?_procs_nextPid w hwf, Option.none_orElse, List.find?]
  rfl

theorem procHandlers_spawn_new (w : World) (hs : List (String × ToolHandler))
    (hwf : ∀ p ∈ w.procs, p.pid < w.nextPid) :
    (w.spawn hs).1.procHandlers (w.spawn hs).2 = some hs := by
  unfold World.spawn World.procHandlers
  simp only [List.find?_append, find?_procs_nextPid w hwf, Option.none_orElse, List.find?]
  rfl

theorem pid_lt_of_alive (w : World) (pid : Nat) (hwf : ∀ p ∈ w.procs, p.pid < w.nextPid)
    (h : w.procAlive pid = true) : pid < w.nextPid := by
  unfold World.procAlive at h
  cases hf : w.procs.find? (fun p => p.pid = pid) with
  | none => rw [hf] at h; cases h
  | some p =>
    have hmem := List.mem_of_find?_eq_some hf
    have hp : p.pid = pid := by simpa using List.find?_some hf
    rw [← hp]
    exact hwf p hmem

theorem pyStrip_eq_self (s : String)
    (h1 : ∀ c, s.data.head? = some c → isPySpace c = false)
    (h2 : ∀ c, s.data.getLast? = some c → isPySpace c = false) : pyStrip s = s := by
  unfold pyStrip
  have hd : s.data.dropWhile isPySpace = s.data := by
    cases hsd : s.data with
    | nil => rfl
    | cons c t =>
      rw [List.dropWhile_cons, h1 c (by rw [hsd]; rfl)]
      simp
  rw [hd]
  have hr : s.data.reverse.dropWhile isPySpace = s.data.reverse := by
    cases hsr : s.data.reverse with
    | nil => rfl
    | cons c t =>
      have hlast : s.data.getLast? = some c := by
        rw [← List.head?_reverse, hsr]
        rfl
      rw [List.dropWhile_cons, h2 c hlast]
      simp
  rw [hr, List.reverse_reverse]

theorem pyStrip_dumps_obj (kvs : List (String × Json)) :
    pyStrip (pyDumps (.obj kvs)) = pyDumps (.obj kvs) := by
  apply pyStrip_eq_self
  · intro c hc
    have : (pyDumps (Json.obj kvs)).data =
        '\x7b' :: (sepJoin (encodePairs kvs) ++ ['\x7d']) := rfl
    rw [this] at hc
    simp at hc
    rw [← hc]
    rfl
  · intro c hc
    have : (pyDumps (Json.obj kvs)).data =
        ('\x7b' :: sepJoin (encodePairs kvs)) ++ ['\x7d'] := by
      show '\x7b' :: (sepJoin (encodePairs kvs) ++ ['\x7d']) = _
      simp
    rw [this, List.getLast?_concat] at hc
    simp at hc
    rw [← hc]
    rfl

theorem dumps_obj_ne_empty (kvs : List (String × Json)) : pyDumps (.obj kvs) ≠ "" := by
  intro h
  have := congrArg String.data h
  simp [pyDumps] at this
  have h2 : (encodeJ (Json.obj kvs)).length = 0 := by rw [this]; rfl
  have h3 : encodeJ (Json.obj kvs) = '\x7b' :: (sepJoin (encodePairs kvs) ++ ['\x7d']) := rfl
  rw [h3] at h2
  simp at h2

/-- Validity of a worker's published schemas for the modelled codec. -/
def handlersValid (hs : List (String × ToolHandler)) : Bool :=
  jvalidL ((hs.map Prod.snd).map ToolHandler.get_schema)

theorem jvalid_tools_list_request (rid : Int) :
    JsonRpcRequest.valid ⟨"tools/list", [], .int rid⟩ = true := rfl

theorem jvalid_result_tools (rid : Int) (schemas : List Json) (h : jvalidL schemas = true) :
    jvalid (resultResponse (.num rid) (.arr schemas)) = true := by
  show (decide ((([("jsonrpc", Json.str "2.0"), ("id", Json.num rid),
      ("result", Json.arr schemas)]).map Prod.fst).Nodup) &&
    jvalidP [("jsonrpc", Json.str "2.0"), ("id", Json.num rid),
      ("result", Json.arr schemas)]) = true
  rw [Bool.and_eq_true]
  constructor
  · show decide ((["jsonrpc", "id", "result"] : List String).Nodup) = true
    decide
  · show (validStr "jsonrpc" && jvalid (Json.str "2.0") &&
      (validStr "id" && jvalid (Json.num rid) &&
        (validStr "result" && jvalid (Json.arr schemas) && jvalidP []))) = true
    have h1 : jvalid (Json.arr schemas) = jvalidL schemas := rfl
    rw [h1, h]
    rfl

/-- The worker's answer to a `tools/list` request over a live transport: the
ordered schemas of its registered handlers, as a non-error response. -/
theorem send_tools_list (w : World) (t : StdioTransport) (pid : Nat)
    (hs : List (String × ToolHandler)) (rid : Int)
    (hproc : t.process = some pid) (halive : w.procAlive pid = true)
    (hh : w.procHandlers pid = some hs) (hv : handlersValid hs = true) :
    StdioTransport.send w t ⟨"tools/list", [], .int rid⟩ =
      .ok ⟨.num rid, .arr ((hs.map Prod.snd).map ToolHandler.get_schema), .null⟩ := by
  have hreqparse : pyLoads (JsonRpcRequest.to_json ⟨"tools/list", [], .int rid⟩) =
      some (JsonRpcRequest.toJsonVal ⟨"tools/list", [], .int rid⟩) :=
    pyLoads_pyDumps _ (jvalid_tools_list_request rid)
  have hline : serverRespondLine hs (JsonRpcRequest.to_json ⟨"tools/list", [], .int rid⟩) =
      some (pyDumps (resultResponse (.num rid)
        (.arr ((hs.map Prod.snd).map ToolHandler.get_schema)))) := by
    unfold serverRespondLine StdioToolServer.processLine
    rw [show JsonRpcRequest.to_json ⟨"tools/list", [], .int rid⟩ =
      pyDumps (.obj [("jsonrpc", .str "2.0"), ("method", .str "tools/list"),
        ("params", .obj []), ("id", .num rid)]) from rfl]
    rw [pyStrip_dumps_obj]
    rw [if_neg (dumps_obj_ne_empty _)]
    rw [show pyLoads (pyDumps (.obj [("jsonrpc", .str "2.0"), ("method", .str "tools/list"),
        ("params", .obj []), ("id", .num rid)])) =
      some (.obj [("jsonrpc", .str "2.0"), ("method", .str "tools/list"),
        ("params", .obj []), ("id", .num rid)]) from hreqparse]
    rfl
  have hresparse : pyLoads (pyDumps (resultResponse (.num rid)
      (.arr ((hs.map Prod.snd).map ToolHandler.get_schema)))) =
      some (resultResponse (.num rid)
        (.arr ((hs.map Prod.snd).map ToolHandler.get_schema))) :=
    pyLoads_pyDumps _ (jvalid_result_tools rid _ hv)
  have hisalive : t.is_alive w = true := by
    unfold StdioTransport.is_alive
    rw [hproc]
    exact halive
  unfold StdioTransport.send
  rw [if_pos hisalive, hproc]
  rw [show (some pid).bind (fun pid => w.procHandlers pid) = some hs from by
    simp [hh]]
  simp only [hline]
  rw [show (resultResponse (.num rid)
      (.arr ((hs.map Prod.snd).map ToolHandler.get_schema))) =
    (.obj [("jsonrpc", .str "2.0"), ("id", .num rid),
      ("result", .arr ((hs.map Prod.snd).map ToolHandler.get_schema))]) from rfl]
  rw [pyStrip_dumps_obj]
  unfold JsonRpcResponse.from_json
  rw [show pyLoads (pyDumps (.obj [("jsonrpc", .str "2.0"), ("id", .num rid),
      ("result", .arr ((hs.map Prod.snd).map ToolHandler.get_schema))])) =
    some (.obj [("jsonrpc", .str "2.0"), ("id", .num rid),
      ("result", .arr ((hs.map Prod.snd).map ToolHandler.get_schema))]) from hresparse]
  rfl

theorem orEmptyList_arr (xs : List Json) : orEmptyList (.arr xs) = .arr xs := by
  cases xs <;> rfl

theorem transport_start_fresh (w : World) (cmd : List String)
    (env : Option (List (String × String))) (hs : List (String × ToolHandler))
    (hlaunch : w.launch cmd = some hs) :
    StdioTransport.start w (StdioTransport.init cmd env) =
      ((w.spawn hs).1, ⟨cmd, env, some w.nextPid, 0⟩, [TEvent.spawned w.nextPid], .ok ()) := by
  unfold StdioTransport.start StdioTransport.init
  simp only [hlaunch, World.spawn]
  rfl

theorem transport_start_fresh_fail (w : World) (cmd : List String)
    (env : Option (List (String × String))) (hlaunch : w.launch cmd = none) :
    StdioTransport.start w (StdioTransport.init cmd env) =
      (w, StdioTransport.init cmd env, [], .error (launchErrMsg cmd)) := by
  unfold StdioTransport.start StdioTransport.init
  simp only [hlaunch]

theorem manager_start_launch_fail (w : World) (m : ToolServerManager) (sid : String)
    (entry : ServerEntry) (hlook : m.lookup sid = some entry)
    (hlaunch : w.launch entry.command = none) :
    ToolServerManager.start w m sid = (w, m, [], .error (launchErrMsg entry.command)) := by
  unfold ToolServerManager.start
  rw [hlook]
  simp only [transport_start_fresh_fail w entry.command entry.env hlaunch]

theorem manager_start_success (w : World) (m : ToolServerManager) (sid : String)
    (entry : ServerEntry) (hs : List (String × ToolHandler))
    (hlook : m.lookup sid = some entry)
    (hlaunch : w.launch entry.command = some hs)
    (hwf : ∀ p ∈ w.procs, p.pid < w.nextPid)
    (hv : handlersValid hs = true) :
    ToolServerManager.start w m sid =
      ((w.spawn hs).1,
       (m.setTransport sid (some ⟨entry.command, entry.env, some w.nextPid, 1⟩)).setTools sid
         (.arr ((hs.map Prod.snd).map ToolHandler.get_schema)),
       [TEvent.spawned w.nextPid],
       .ok (.arr ((hs.map Prod.snd).map ToolHandler.get_schema))) := by
  have halive2 : (w.spawn hs).1.procAlive w.nextPid = true := by
    have := procAlive_spawn_new w hs hwf
    rwa [show (w.spawn hs).2 = w.nextPid from rfl] at this
  have hh2 : (w.spawn hs).1.procHandlers w.nextPid = some hs := by
    have := procHandlers_spawn_new w hs hwf
    rwa [show (w.spawn hs).2 = w.nextPid from rfl] at this
  have hsend := send_tools_list (w.spawn hs).1
    ⟨entry.command, entry.env, some w.nextPid, 1⟩ w.nextPid hs (((1 : Nat) : Int))
    rfl halive2 hh2 hv
  unfold ToolServerManager.start
  rw [hlook]
  simp only [transport_start_fresh w entry.command entry.env hs hlaunch]
  rw [show StdioTransport.next_id ⟨entry.command, entry.env, some w.nextPid, 0⟩ =
    ((1 : Nat), ⟨entry.command, entry.env, some w.nextPid, 1⟩) from rfl]
  simp only [hsend]
  simp only [JsonRpcResponse.is_error, isNullJ, Bool.not_true, Bool.false_eq_true,
    if_false, orEmptyList_arr]

/-- C10: restarting a server whose registration holds a live transport
builds a brand-new transport, overwrites the registration's transport field,
and never invokes `stop()` on the previous transport: the only lifecycle
event is the spawn of the new child, the previous child is still alive in
the resulting world, and the registration now references the new pid only. -/
theorem claim_C10_restart_leaks_previous_child (w : World) (m : ToolServerManager)
    (sid : String) (entry : ServerEntry) (told : StdioTransport) (pid : Nat)
    (hs : List (String × ToolHandler))
    (hlook : m.lookup sid = some entry)
    (ht : entry.transport = some told)
    (hpid : told.process = some pid)
    (halive : w.procAlive pid = true)
    (hwf : ∀ p ∈ w.procs, p.pid < w.nextPid)
    (hlaunch : w.launch entry.command = some hs)
    (hv : handlersValid hs = true) :
    (ToolServerManager.start w m sid).2.2.1 = [TEvent.spawned w.nextPid] ∧
    World.procAlive (ToolServerManager.start w m sid).1 pid = true ∧
    ((ToolServerManager.start w m sid).2.1.lookup sid =
      some { entry with
               transport := some ⟨entry.command, entry.env, some w.nextPid, 1⟩,
               tools := .arr ((hs.map Prod.snd).map ToolHandler.get_schema) }) ∧
    pid ≠ w.nextPid := by
  have hlt : pid < w.nextPid := pid_lt_of_alive w pid hwf halive
  have hne : pid ≠ w.nextPid := by omega
  rw [manager_start_success w m sid entry hs hlook hlaunch hwf hv]
  refine ⟨rfl, ?_, ?_, hne⟩
  · show World.procAlive (w.spawn hs).1 pid = true
    rw [procAlive_spawn_old w hs pid hne]
    exact halive
  · show ((m.setTransport sid
        (some ⟨entry.command, entry.env, some w.nextPid, 1⟩)).setTools sid
        (.arr ((hs.map Prod.snd).map ToolHandler.get_schema))).lookup sid = _
    rw [lookup_setTools_self, lookup_setTransport_self, hlook]
    rfl


/-- Closed instance of C10: restarting over a live child 0 spawns child 1
and leaves child 0 running. -/
theorem claim_C10_restart_leaks_previous_child_witness :
    (ToolServerManager.start ⟨fun _ => some [], [⟨0, [], true⟩], 1⟩
      ⟨[("s", ⟨["c"], none, some ⟨["c"], none, some 0, 1⟩, .arr []⟩)]⟩ "s").2.2.1 =
      [TEvent.spawned 1] ∧
    World.procAlive (ToolServerManager.start ⟨fun _ => some [], [⟨0, [], true⟩], 1⟩
      ⟨[("s", ⟨["c"], none, some ⟨["c"], none, some 0, 1⟩, .arr []⟩)]⟩ "s").1 0 = true := by
  have h := claim_C10_restart_leaks_previous_child
    ⟨fun _ => some [], [⟨0, [], true⟩], 1⟩
    ⟨[("s", ⟨["c"], none, some ⟨["c"], none, some 0, 1⟩, .arr []⟩)]⟩ "s"
    ⟨["c"], none, some ⟨["c"], none, some 0, 1⟩, .arr []⟩
    ⟨["c"], none, some 0, 1⟩ 0 [] rfl rfl rfl rfl
    (by intro p hp
        simp at hp
        rw [hp]
        decide)
    rfl rfl
  exact ⟨h.1, h.2.1⟩

theorem startAllAux_keys (ids : List String) :
    ∀ (w : World) (m : ToolServerManager),
      ((ToolServerManager.startAllAux w m ids).2.2.map Prod.fst = ids) := by
  induction ids with
  | nil => intro w m; rfl
  | cons sid rest ih =>
    intro w m
    rw [ToolServerManager.startAllAux]
    rcases hst : ToolServerManager.start w m sid with ⟨w1, m1, evs, r⟩
    cases r with
    | ok tools => simp [ih w1 m1]
    | error e => simp [ih w1 m1]

/-- The echo tool of the C5 scenario. -/
def echoHandlerC5 : ToolHandler :=
  ⟨"echo", "Echoes back the input message. Useful for testing.",
   [("message", .obj [("type", .str "string"),
     ("description", .str "The message to echo back")])],
   fun params => .ok params⟩

/-- C5 scenario world: `["good"]` launches a worker with the echo tool, any
other command fails to launch. -/
def worldC5 : World :=
  ⟨fun cmd => if cmd = ["good"] then some [("echo", echoHandlerC5)] else none, [], 0⟩

/-- C5 scenario manager: a failing registration followed by a working one. -/
def managerC5 : ToolServerManager :=
  (ToolServerManager.empty.register_server "bad" ["bad"] none).register_server
    "good" ["good"] none

set_option maxRecDepth 4000 in
/-- C5: `start_all` returns one entry per registered id, in registration
order, for every world and manager (and, being a total function, it never
raises); in the concrete scenario with a failing first server, the failure
is caught and recorded as an empty schema list while the later server is
still started and reports its schemas. -/
theorem claim_C5_start_all_isolates_failures (w : World) (m : ToolServerManager) :
    ((ToolServerManager.start_all w m).2.2.map Prod.fst = m.servers.map Prod.fst) ∧
    (ToolServerManager.start_all worldC5 managerC5).2.2 =
      [("bad", .arr []), ("good", .arr [echoHandlerC5.get_schema])] := by
  constructor
  · exact startAllAux_keys (m.servers.map Prod.fst) w m
  · rfl

/-- C8: stopping a started server detaches its transport but leaves the
cached tool schemas unchanged (`list_tools` still answers from the cache),
leaves every other registration untouched, and any `call` on a registration
whose transport is detached fails with the not-running error — so calls on
this id keep failing until a new `start` attaches a transport again. -/
theorem claim_C8_stop_retains_schemas (w : World) (m : ToolServerManager) (sid : String)
    (entry : ServerEntry) (t : StdioTransport)
    (hlook : m.lookup sid = some entry) (ht : entry.transport = some t) :
    ((ToolServerManager.stop w m sid).2.lookup sid =
      some { entry with transport := none }) ∧
    ((ToolServerManager.stop w m sid).2.list_tools sid = m.list_tools sid) ∧
    (∀ sid2, sid2 ≠ sid →
      (ToolServerManager.stop w m sid).2.lookup sid2 = m.lookup sid2) ∧
    (∀ (w2 : World) (m2 : ToolServerManager) (e2 : ServerEntry) (tool : String)
      (args : List (String × Json)), m2.lookup sid = some e2 → e2.transport = none →
      (ToolServerManager.call w2 m2 sid tool args).2 = .error (notRunningMsg sid)) := by
  have hstop : (ToolServerManager.stop w m sid).2 = m.setTransport sid none := by
    unfold ToolServerManager.stop
    rw [hlook]
    simp only [ht]
  refine ⟨?_, ?_, ?_, ?_⟩
  · rw [hstop, lookup_setTransport_self, hlook]
    rfl
  · rw [hstop]
    unfold ToolServerManager.list_tools
    rw [lookup_setTransport_self, hlook]
    rfl
  · intro sid2 hne
    rw [hstop]
    exact lookup_setTransport_ne m sid sid2 none hne
  · intro w2 m2 e2 tool args hlook2 htrans2
    unfold ToolServerManager.call
    rw [hlook2]
    simp only [htrans2]

/-- Closed instance of C8: after `stop`, the cached schemas survive and a
call on the stopped id fails with the not-running error. -/
theorem claim_C8_stop_retains_schemas_witness :
    ((ToolServerManager.stop ⟨fun _ => none, [⟨0, [], true⟩], 1⟩
        ⟨[("s", ⟨["c"], none, some ⟨["c"], none, some 0, 1⟩, .arr [.str "x"]⟩)]⟩ "s").2.list_tools
      "s" =
      (⟨[("s", ⟨["c"], none, some ⟨["c"], none, some 0, 1⟩, .arr [.str "x"]⟩)]⟩ :
        ToolServerManager).list_tools "s") ∧
    (ToolServerManager.call ⟨fun _ => none, [], 1⟩
      (ToolServerManager.stop ⟨fun _ => none, [⟨0, [], true⟩], 1⟩
        ⟨[("s", ⟨["c"], none, some ⟨["c"], none, some 0, 1⟩, .arr [.str "x"]⟩)]⟩ "s").2
      "s" "tool" []).2 = .error (notRunningMsg "s") := by
  have h := claim_C8_stop_retains_schemas ⟨fun _ => none, [⟨0, [], true⟩], 1⟩
    ⟨[("s", ⟨["c"], none, some ⟨["c"], none, some 0, 1⟩, .arr [.str "x"]⟩)]⟩ "s"
    ⟨["c"], none, some ⟨["c"], none, some 0, 1⟩, .arr [.str "x"]⟩
    ⟨["c"], none, some 0, 1⟩ rfl rfl
  exact ⟨h.2.1, h.2.2.2 ⟨fun _ => none, [], 1⟩ _ _ "tool" [] h.1 rfl⟩
